import Mathlib

/-!
Shallow embedding of the whale-detection pipeline of the Prediction-Markets
repository (src/whale_detector.py and src/entity_engine.py), together with
proofs settling the specification claims about it.

Conventions of the embedding:
* Python floats are modelled as exact rationals (`ℚ`); the one place where an
  irrational value appears (the exponential edge decay of the entity engine)
  is modelled over `ℝ`.
* `datetime` values are modelled as integer epoch seconds (`ℤ`); `timedelta`
  arithmetic becomes integer arithmetic.  Calls to `datetime.now()` inside a
  single `analyze_trade` run are modelled by one explicit `now` argument.
* Python dicts become functions into `Option`, Python sets of strings become
  duplicate-free lists, Python lists stay lists.
* Stateful methods become pure functions from the touched state to results.
-/

namespace PM

/-- Lower-case a string character by character (Python str.lower on ASCII). -/
def strLower (s : String) : String := String.mk (s.data.map Char.toLower)

/-- Does the character list `l` start with `p`? -/
def charsStartWith : List Char → List Char → Bool
  | _, [] => true
  | [], _ :: _ => false
  | c :: cs, d :: ds => c = d && charsStartWith cs ds

/-- Does the character list `l` contain `p` as a contiguous sublist? -/
def charsContain : List Char → List Char → Bool
  | [], p => p.isEmpty
  | c :: cs, p => charsStartWith (c :: cs) p || charsContain cs p

/-- Python `pat in s` substring test. -/
def strContains (s pat : String) : Bool := charsContain s.data pat.data

/-- HIGH_FREQUENCY_MARKET_PATTERNS from whale_detector.py. -/
def highFrequencyMarketPatterns : List String :=
  ["bitcoin up or down", "btc up or down", "btc-updown", "btc updown",
   "-15m-", "15m-", "-5m-", "5m-", "btc-1h", "bitcoin-1h"]

/-- is_high_frequency_market: any pattern occurs in the lowered question,
market id or slug (slug is never passed by the detector, so it is omitted). -/
def isHighFrequencyMarket (marketQuestion : Option String) (marketId : String) : Bool :=
  let texts := (match marketQuestion with
    | some q => [strLower q]
    | none => []) ++ [strLower marketId]
  texts.any (fun t => highFrequencyMarketPatterns.any (fun p => strContains t p))

/-- SPORTS_KEYWORDS from whale_detector.py (full list). -/
def sportsKeywords : List String :=
  ["nfl", "nba", "mlb", "nhl", "mls", "ncaa", "college football", "college basketball",
   "super bowl", "world series", "stanley cup", "championship game",
   "playoffs", "draft pick", "mvp award", "rookie of the year",
   "touchdown", "home run", "goal scored", "points scored",
   "win total", "spread", "over/under", "moneyline",
   "premier league", "la liga", "bundesliga", "serie a", "champions league",
   "ufc", "boxing", "mma", "wrestling", "tennis", "golf", "pga",
   "olympics", "world cup", "euro 2024", "cricket", "rugby",
   "f1", "formula 1", "nascar", "indy 500",
   "player prop", "game total", "first scorer", "anytime scorer",
   " vs ", " vs. ", " @ ",
   "lakers", "celtics", "warriors", "bulls", "heat", "knicks", "nets", "suns", "bucks",
   "mavericks", "mavs", "clippers", "nuggets", "grizzlies", "pelicans", "thunder", "rockets",
   "spurs", "timberwolves", "wolves", "jazz", "kings", "blazers", "trail blazers", "pacers",
   "hawks", "hornets", "cavaliers", "cavs", "pistons", "raptors", "wizards", "magic", "76ers",
   "sixers",
   "patriots", "cowboys", "eagles", "chiefs", "bills", "dolphins", "jets", "ravens", "steelers",
   "bengals", "browns", "colts", "texans", "titans", "jaguars", "broncos", "raiders", "chargers",
   "commanders", "giants", "packers", "bears", "lions", "vikings", "saints", "falcons", "panthers",
   "buccaneers", "bucs", "cardinals", "rams", "seahawks", "49ers", "niners"]

/-- Sports ticker patterns checked against the market id in is_sports_market. -/
def sportsTickerPatterns : List String :=
  ["nba", "nfl", "mlb", "nhl", "mls", "ncaa", "ufc", "pga"]

/-- is_sports_market from whale_detector.py. -/
def isSportsMarket (marketQuestion : Option String) (marketId : String) : Bool :=
  (match marketQuestion with
    | some q => sportsKeywords.any (fun k => strContains (strLower q) k)
    | none => false)
  || sportsTickerPatterns.any (fun p => strContains (strLower marketId) p)

/-- Category keyword table of _detect_category_from_text, in source order
(Python dicts preserve insertion order, and the first matching category wins). -/
def categoryKeywords : List (String × List String) :=
  [("Politics", ["trump", "biden", "election", "president", "congress", "senate",
      "vote", "democrat", "republican", "governor", "mayor", "party",
      "nominee", "gop", "dnc", "rnc", "political", "pelosi", "mccarthy",
      "desantis", "newsom", "whitmer", "vance", "harris"]),
   ("Crypto", ["bitcoin", "btc", "ethereum", "eth", "crypto", "token", "blockchain",
      "solana", "sol", "dogecoin", "doge", "ripple", "xrp", "cardano"]),
   ("Sports", ["nfl", "nba", "mlb", "nhl", "super bowl", "championship", "playoff",
      "world series", "stanley cup", "premier league", "uefa", "fifa",
      " vs ", " vs. ", " @ ", "lakers", "celtics", "warriors", "chiefs",
      "eagles", "cowboys", "yankees", "dodgers", "game", "match"]),
   ("Finance", ["stock", "s&p", "nasdaq", "fed", "interest rate", "inflation",
      "gdp", "recession", "market", "dow", "treasury", "unemployment",
      "fomc", "cpi", "jobs report", "earnings"]),
   ("Entertainment", ["oscar", "grammy", "emmy", "movie", "album", "celebrity",
      "twitter", "tweet", "streaming", "netflix", "spotify",
      "box office", "billboard", "taylor swift", "beyonce"]),
   ("Science", ["ai ", "openai", "climate", "fda", "vaccine", "space", "nasa",
      "weather", "hurricane", "earthquake", "temperature", "gpt",
      "artificial intelligence", "spacex", "launch"]),
   ("World", ["war", "ukraine", "russia", "china", "iran", "israel", "military",
      "invasion", "ceasefire", "nato", "sanctions", "tariff", "trade war",
      "north korea", "taiwan", "gaza", "hamas", "putin", "zelensky"])]

/-- Upper-case a string (Python str.upper on ASCII). -/
def strUpper (s : String) : String := String.mk (s.data.map Char.toUpper)

/-- Kalshi ticker pattern tables of _detect_category_from_text. -/
def tickerSports : List String :=
  ["KXNBA", "KXNFL", "KXMLB", "KXNHL", "KXMVE", "KXATP", "KXWTA",
   "KXLIGUE", "KXEUROLEAGUE", "KXPREMIER", "KXLALIGA", "KXSERIE",
   "KXBUNDES", "KXCHAMPIONS", "KXUFC", "KXPGA", "KXTENNIS",
   "SPORTS", "GAME", "MATCH", "TOTAL"]

def tickerCrypto : List String :=
  ["KXBTC", "KXETH", "KXSOL", "KXDOGE", "KXCRYPTO", "BITCOIN", "ETHEREUM"]

def tickerFinance : List String :=
  ["KXEO", "KXCPI", "KXGDP", "KXJOBS", "KXFED", "KXFOMC", "KXRATE",
   "KXINFL", "KXUNEMPLOY", "KXSP500", "KXNASDAQ", "KXDOW"]

def tickerPolitics : List String :=
  ["KXTRUMP", "KXBIDEN", "KXPRES", "KXELECT", "KXGOV", "KXSEN",
   "KXHOUSE", "KXCONGRESS", "KXDJTVO"]

/-- _detect_category_from_text from whale_detector.py. -/
def detectCategoryFromText (text : Option String) (marketId : String) : String :=
  let byText : Option String :=
    match text with
    | some t =>
        let tl := strLower t
        (categoryKeywords.find? (fun ck => ck.2.any (fun kw => strContains tl kw))).map (·.1)
    | none => none
  match byText with
  | some c => c
  | none =>
      let mu := strUpper marketId
      if tickerSports.any (fun p => strContains mu p) then "Sports"
      else if tickerCrypto.any (fun p => strContains mu p) then "Crypto"
      else if tickerFinance.any (fun p => strContains mu p) then "Finance"
      else if tickerPolitics.any (fun p => strContains mu p) then "Politics"
      else "Other"

/-- A normalized trade (polymarket_client.Trade, the fields the detector reads).
Amounts and prices are exact rationals, timestamps are epoch seconds. -/
structure Trade where
  id : String
  market_id : String
  trader_address : String
  outcome : String
  side : String
  size : ℚ
  price : ℚ
  amount_usd : ℚ
  timestamp : ℤ

/-- Per-(market,outcome) position aggregates of a wallet. -/
structure Position where
  buy_shares : ℚ
  buy_usd : ℚ
  sell_shares : ℚ
  sell_usd : ℚ

/-- The all-zero position returned by WalletProfile.get_position for unknown keys. -/
def Position.zero : Position := ⟨0, 0, 0, 0⟩

/-- net_shares derived field of get_position. -/
def Position.net_shares (p : Position) : ℚ := p.buy_shares - p.sell_shares

/-- WalletProfile from whale_detector.py.  The nested positions dict is a
function from (market_id, outcome); sets are duplicate-free lists.
(resolved_positions is never touched by analyze_trade and is omitted.) -/
structure WalletProfile where
  address : String
  total_trades : ℕ
  total_volume_usd : ℚ
  first_seen : Option ℤ
  last_seen : Option ℤ
  markets_traded : List String
  winning_trades : ℕ
  losing_trades : ℕ
  positions : String → String → Option Position
  non_sports_trades : ℕ
  non_sports_volume_usd : ℚ
  recent_trade_times : List ℤ
  total_buys : ℕ
  total_sells : ℕ
  buy_volume_usd : ℚ
  sell_volume_usd : ℚ
  large_trades_count : ℕ

/-- A fresh profile as created by _update_wallet_profile (dataclass defaults). -/
def freshProfile (address : String) (firstSeen : ℤ) : WalletProfile :=
  { address := address
    total_trades := 0
    total_volume_usd := 0
    first_seen := some firstSeen
    last_seen := none
    markets_traded := []
    winning_trades := 0
    losing_trades := 0
    positions := fun _ _ => none
    non_sports_trades := 0
    non_sports_volume_usd := 0
    recent_trade_times := []
    total_buys := 0
    total_sells := 0
    buy_volume_usd := 0
    sell_volume_usd := 0
    large_trades_count := 0 }

/-- WalletProfile.get_position (zero-filled when absent, with net_shares derived). -/
def WalletProfile.getPosition (p : WalletProfile) (marketId outcome : String) : Position :=
  (p.positions marketId outcome).getD Position.zero

/-- WalletProfile.get_position_action: OPENING / ADDING / CLOSING decided from
the sign of net_shares of the stored position (i.e. the state BEFORE the trade
being classified is applied). -/
def WalletProfile.getPositionAction (p : WalletProfile) (marketId outcome side : String) : String :=
  if (p.getPosition marketId outcome).net_shares = 0 then "OPENING"
  else if 0 < (p.getPosition marketId outcome).net_shares then
    (if strLower side = "buy" then "ADDING" else "CLOSING")
  else if (p.getPosition marketId outcome).net_shares < 0 then
    (if strLower side = "sell" then "ADDING" else "CLOSING")
  else "OPENING"

/-- WalletProfile.update_position. -/
def WalletProfile.updatePosition (p : WalletProfile) (marketId outcome side : String)
    (shares amountUsd : ℚ) : WalletProfile :=
  let old := p.getPosition marketId outcome
  let upd : Position :=
    if strLower side = "buy" then
      { old with buy_shares := old.buy_shares + shares, buy_usd := old.buy_usd + amountUsd }
    else if strLower side = "sell" then
      { old with sell_shares := old.sell_shares + shares, sell_usd := old.sell_usd + amountUsd }
    else old
  { p with positions := fun m o =>
      if (m, o) = (marketId, outcome) then some upd else p.positions m o }

/-- WalletProfile.add_trade_timestamp: append, keep only the last 100. -/
def WalletProfile.addTradeTimestamp (p : WalletProfile) (ts : ℤ) : WalletProfile :=
  let l := p.recent_trade_times ++ [ts]
  { p with recent_trade_times := if 100 < l.length then l.drop (l.length - 100) else l }

/-- trades_last_hour property (cutoff = now - 1 hour, strict >). -/
def WalletProfile.tradesLastHour (p : WalletProfile) (now : ℤ) : ℕ :=
  (p.recent_trade_times.filter (fun t => now - 3600 < t)).length

/-- trades_last_24h property. -/
def WalletProfile.tradesLast24h (p : WalletProfile) (now : ℤ) : ℕ :=
  (p.recent_trade_times.filter (fun t => now - 86400 < t)).length

/-- is_repeat_actor: 3+ trades in the last hour. -/
def WalletProfile.isRepeatActor (p : WalletProfile) (now : ℤ) : Prop :=
  3 ≤ p.tradesLastHour now

/-- is_heavy_actor: 10+ trades in the last 24 hours. -/
def WalletProfile.isHeavyActor (p : WalletProfile) (now : ℤ) : Prop :=
  10 ≤ p.tradesLast24h now

/-- is_new_wallet: fewer than 5 trades ever. -/
def WalletProfile.isNewWallet (p : WalletProfile) : Prop := p.total_trades < 5

/-- is_focused: concentrated in at most 3 markets with 5+ trades. -/
def WalletProfile.isFocused (p : WalletProfile) : Prop :=
  p.markets_traded.length ≤ 3 ∧ 5 ≤ p.total_trades

/-- win_rate: None below 10 resolved trades. -/
def WalletProfile.winRate (p : WalletProfile) : Option ℚ :=
  let total := p.winning_trades + p.losing_trades
  if total < 10 then none else some ((p.winning_trades : ℚ) / (total : ℚ))

/-- is_smart_money: win rate at least 65 percent and at least 50k volume. -/
def WalletProfile.isSmartMoney (p : WalletProfile) : Prop :=
  match p.winRate with
  | none => False
  | some r => 0.65 ≤ r ∧ 50000 ≤ p.total_volume_usd

/-- is_vip: qualifies via volume, win rate, or large-trade history. -/
def WalletProfile.isVip (p : WalletProfile) (minVolume minWinRate : ℚ)
    (minLargeTrades : ℕ) : Prop :=
  minVolume ≤ p.total_volume_usd
  ∨ (∃ r, p.winRate = some r ∧ minWinRate ≤ r)
  ∨ minLargeTrades ≤ p.large_trades_count

instance (p : WalletProfile) (now : ℤ) : Decidable (p.isRepeatActor now) := by
  unfold WalletProfile.isRepeatActor; infer_instance

instance (p : WalletProfile) (now : ℤ) : Decidable (p.isHeavyActor now) := by
  unfold WalletProfile.isHeavyActor; infer_instance

instance (p : WalletProfile) : Decidable p.isNewWallet := by
  unfold WalletProfile.isNewWallet; infer_instance

instance (p : WalletProfile) : Decidable p.isFocused := by
  unfold WalletProfile.isFocused; infer_instance

instance (p : WalletProfile) : Decidable p.isSmartMoney :=
  match h : p.winRate with
  | none => isFalse (by simp [WalletProfile.isSmartMoney, h])
  | some r =>
      decidable_of_iff (0.65 ≤ r ∧ 50000 ≤ p.total_volume_usd)
        (by simp [WalletProfile.isSmartMoney, h])

instance (p : WalletProfile) (v w : ℚ) (n : ℕ) : Decidable (p.isVip v w n) :=
  match h : p.winRate with
  | none =>
      decidable_of_iff (v ≤ p.total_volume_usd ∨ n ≤ p.large_trades_count) (by
        unfold WalletProfile.isVip
        constructor
        · rintro (h1 | h2)
          · exact Or.inl h1
          · exact Or.inr (Or.inr h2)
        · rintro (h1 | ⟨r, hr, _⟩ | h2)
          · exact Or.inl h1
          · simp [h] at hr
          · exact Or.inr h2)
  | some r =>
      decidable_of_iff (v ≤ p.total_volume_usd ∨ w ≤ r ∨ n ≤ p.large_trades_count) (by
        unfold WalletProfile.isVip
        constructor
        · rintro (h1 | h2 | h3)
          · exact Or.inl h1
          · exact Or.inr (Or.inl ⟨r, h, h2⟩)
          · exact Or.inr (Or.inr h3)
        · rintro (h1 | ⟨s, hs, h2⟩ | h3)
          · exact Or.inl h1
          · rw [h] at hs; injection hs with hrs; subst hrs; exact Or.inr (Or.inl h2)
          · exact Or.inr (Or.inr h3))

/-- Constructor arguments of WhaleDetector.__init__ that analyze_trade reads.
Time windows are stored in seconds. -/
structure DetectorConfig where
  whale_threshold_usd : ℚ
  new_wallet_threshold_usd : ℚ
  focused_wallet_threshold_usd : ℚ
  std_multiplier : ℚ
  min_trades_for_stats : ℕ
  exclude_sports : Bool
  cluster_time_window : ℤ
  min_alert_threshold_usd : ℚ
  crypto_min_threshold_usd : ℚ
  vip_min_volume : ℚ
  vip_min_win_rate : ℚ
  vip_min_large_trades : ℕ
  vip_large_trade_threshold : ℚ
  min_triggers_required : ℕ

/-- The default constructor arguments of WhaleDetector. -/
def defaultConfig : DetectorConfig :=
  { whale_threshold_usd := 10000
    new_wallet_threshold_usd := 1000
    focused_wallet_threshold_usd := 5000
    std_multiplier := 3
    min_trades_for_stats := 100
    exclude_sports := true
    cluster_time_window := 300
    min_alert_threshold_usd := 2000
    crypto_min_threshold_usd := 974
    vip_min_volume := 100000
    vip_min_win_rate := 0.55
    vip_min_large_trades := 5
    vip_large_trade_threshold := 5000
    min_triggers_required := 2 }

/-- self.exempt_alert_types: alert types exempt from the minimum USD threshold
and from the multi-signal requirement. -/
def exemptAlertTypes : List String :=
  ["WHALE_TRADE", "CLUSTER_ACTIVITY", "VIP_WALLET", "ENTITY_ACTIVITY"]

/-- self.crypto_exempt_types: alert types that bypass crypto filtering. -/
def cryptoExemptTypes : List String :=
  ["CLUSTER_ACTIVITY", "WHALE_TRADE", "SMART_MONEY", "VIP_WALLET"]

/-- The slice of an Entity that analyze_trade reads through
get_entity_for_wallet (wallet_count and confidence). -/
structure EntityView where
  wallet_count : ℕ
  confidence : ℚ

/-- Hourly volume record of self.market_hourly_volume (volume is kept equal to
the sum of the retained window by _update_market_volume). -/
structure VolumeData where
  trades : List (ℤ × ℚ)
  volume : ℚ
  last_updated : ℤ

/-- The mutable WhaleDetector state that a single analyze_trade call reads.
get_entity_for_wallet delegates to the lazily created EntityEngine; its answer
at the time of the call is modelled by the entity_for_wallet field (the engine
itself is embedded separately below). -/
structure DetectorState where
  wallet_profiles : String → Option WalletProfile
  recent_trade_sizes : List ℚ
  market_questions : String → Option String
  market_urls : String → Option String
  market_categories : String → Option String
  market_prices : String → Option (List (String × ℚ))
  recent_market_trades : String → List (String × ℤ × ℚ)
  market_hourly_volume : String → Option VolumeData
  entity_for_wallet : String → Option EntityView

/-- _is_anonymous_trader: empty id or one of the anonymous sentinel strings as
a leading marker. -/
def strStartsWith (s pat : String) : Bool := charsStartWith s.data pat.data

def isAnonymousTrader (traderAddress : String) : Bool :=
  traderAddress = ""
  || strStartsWith traderAddress "KALSHI_ANON"
  || strStartsWith traderAddress "UNKNOWN"
  || strStartsWith traderAddress "ANONYMOUS"

/-- _update_wallet_profile: create-or-update the trader's profile from a trade. -/
def updateWalletProfile (cfg : DetectorConfig) (profiles : String → Option WalletProfile)
    (t : Trade) (marketQuestion : Option String) : WalletProfile :=
  let p0 := (profiles t.trader_address).getD (freshProfile t.trader_address t.timestamp)
  let p1 := { p0 with
    total_trades := p0.total_trades + 1
    total_volume_usd := p0.total_volume_usd + t.amount_usd
    last_seen := some t.timestamp
    markets_traded :=
      if t.market_id ∈ p0.markets_traded then p0.markets_traded
      else p0.markets_traded ++ [t.market_id] }
  let p2 := p1.addTradeTimestamp t.timestamp
  let p3 :=
    if strLower t.side = "buy" then
      { p2 with total_buys := p2.total_buys + 1,
                buy_volume_usd := p2.buy_volume_usd + t.amount_usd }
    else if strLower t.side = "sell" then
      { p2 with total_sells := p2.total_sells + 1,
                sell_volume_usd := p2.sell_volume_usd + t.amount_usd }
    else p2
  let p4 :=
    if cfg.vip_large_trade_threshold ≤ t.amount_usd then
      { p3 with large_trades_count := p3.large_trades_count + 1 }
    else p3
  let p5 := p4.updatePosition t.market_id t.outcome t.side t.size t.amount_usd
  if isSportsMarket marketQuestion t.market_id then p5
  else { p5 with non_sports_trades := p5.non_sports_trades + 1,
                 non_sports_volume_usd := p5.non_sports_volume_usd + t.amount_usd }

/-- The global recent_trade_sizes list after appending this trade (rolling
window of max_recent_trades = 10000, one pop from the front when exceeded). -/
def updatedTradeSizes (sizes : List ℚ) (amount : ℚ) : List ℚ :=
  let l := sizes ++ [amount]
  if 10000 < l.length then l.drop 1 else l

/-- _update_cluster_tracking: the market's recent-trade list after appending
this trade and dropping entries older than 6 times the cluster window. -/
def updatedRecentTrades (cfg : DetectorConfig) (st : DetectorState) (t : Trade)
    (now : ℤ) : List (String × ℤ × ℚ) :=
  ((st.recent_market_trades t.market_id) ++ [(t.trader_address, t.timestamp, t.amount_usd)]).filter
    (fun e => decide (now - 6 * cfg.cluster_time_window < e.2.1))

/-- The market's hourly window before this trade is recorded (empty when the
market has no entry yet). -/
def priorWindow (st : DetectorState) (t : Trade) : List (ℤ × ℚ) :=
  match st.market_hourly_volume t.market_id with
  | some v => v.trades
  | none => []

/-- _update_market_volume: the market's hourly window after appending this
trade and pruning entries older than one hour. -/
def updatedVolumeTrades (st : DetectorState) (t : Trade) (now : ℤ) : List (ℤ × ℚ) :=
  (priorWindow st t ++ [(t.timestamp, t.amount_usd)]).filter (fun e => decide (now - 3600 < e.1))

/-- Sum of the amounts in an hourly window. -/
def windowVolume (l : List (ℤ × ℚ)) : ℚ := (l.map (·.2)).sum

/-- _calculate_impact_ratio, evaluated (as analyze_trade does) right after
_update_market_volume has recorded the current trade: trade cash divided by
the market's hourly volume, with unknown or nonpositive volume treated as
maximal impact 1. -/
def impactOf (st : DetectorState) (t : Trade) (now : ℤ) : ℚ :=
  let vol := windowVolume (updatedVolumeTrades st t now)
  if vol ≤ 0 then 1 else t.amount_usd / vol

/-- Mean of a list of trade sizes (statistics.mean; meaningful for n ≥ 1). -/
def listMean (l : List ℚ) : ℚ := l.sum / (l.length : ℚ)

/-- Sample variance (the square of statistics.stdev; meaningful for n ≥ 2,
which _calculate_z_score guarantees via min_trades_for_stats). -/
def sampleVariance (l : List ℚ) : ℚ :=
  ((l.map (fun x => (x - listMean l) ^ 2)).sum) / ((l.length : ℚ) - 1)

/-- _calculate_z_score returns a value (rather than None): enough samples and
nonzero standard deviation, i.e. nonzero variance. -/
def zScoreDefined (cfg : DetectorConfig) (sizes : List ℚ) : Prop :=
  cfg.min_trades_for_stats ≤ sizes.length ∧ sampleVariance sizes ≠ 0

/-- The comparison z ≥ m of _is_statistically_unusual, where
z = (amount − mean)/stdev.  Since stdev is an irrational square root, the
comparison is embedded in its exact squared form, which is equivalent for the
nonnegative multipliers the detector uses: for σ > 0 and m ≥ 0,
(amount − mean)/σ ≥ m iff amount − mean ≥ 0 and (amount − mean)² ≥ m²·σ². -/
def zAtLeast (sizes : List ℚ) (amount m : ℚ) : Prop :=
  0 ≤ amount - listMean sizes
  ∧ m ^ 2 * sampleVariance sizes ≤ (amount - listMean sizes) ^ 2

/-- The comparison z < c (severity branch of the UNUSUAL_SIZE trigger) in the
same squared form: for σ > 0 and c > 0, (amount − mean)/σ < c iff
amount − mean < 0 or (amount − mean)² < c²·σ². -/
def zLess (sizes : List ℚ) (amount c : ℚ) : Prop :=
  amount - listMean sizes < 0
  ∨ (amount - listMean sizes) ^ 2 < c ^ 2 * sampleVariance sizes

instance (cfg : DetectorConfig) (sizes : List ℚ) : Decidable (zScoreDefined cfg sizes) := by
  unfold zScoreDefined; infer_instance

instance (sizes : List ℚ) (amount m : ℚ) : Decidable (zAtLeast sizes amount m) := by
  unfold zAtLeast; infer_instance

instance (sizes : List ℚ) (amount c : ℚ) : Decidable (zLess sizes amount c) := by
  unfold zLess; infer_instance

/-- _get_outcome_probability: cached market price for the traded outcome, with
the trade price as fallback (the Python function always ends up with a float
for trades carrying a price, so the embedding returns ℚ). -/
def getOutcomeProbability (st : DetectorState) (t : Trade) : ℚ :=
  match st.market_prices t.market_id with
  | some prices => ((prices.find? (fun p => p.1 = t.outcome)).map (·.2)).getD t.price
  | none => t.price

/-- _calculate_severity_score: base 5, additive rubric, clamped to [1, 10].
The EXTREME_CONFIDENCE branch tests Python truthiness of the probability
(non-zero) before the ≤ 0.10 comparison. -/
def calculateSeverityScore (cfg : DetectorConfig) (st : DetectorState) (t : Trade)
    (profile : WalletProfile) (alertType : String) (now : ℤ) : ℤ :=
  let s1 : ℤ := 5 +
    (if (100000 : ℚ) ≤ t.amount_usd then 4
     else if (50000 : ℚ) ≤ t.amount_usd then 3
     else if (25000 : ℚ) ≤ t.amount_usd then 2
     else if (10000 : ℚ) ≤ t.amount_usd then 1
     else 0)
  let s2 := s1 + (if profile.isNewWallet then 2 else 0)
  let s3 := s2 + (if profile.isSmartMoney then 2 else 0)
  let s4 := s3 + (if profile.isFocused then 1 else 0)
  let s5 := s4 + (if profile.isHeavyActor now then 1 else 0)
  let s6 := s5 + (if profile.isRepeatActor now then 1 else 0)
  let s7 := s6 +
    (if alertType = "SMART_MONEY" then 1
     else if alertType = "NEW_WALLET" then 1
     else if alertType = "CONTRARIAN" then 2
     else if alertType = "CLUSTER_ACTIVITY" then 2
     else if alertType = "EXTREME_CONFIDENCE" then
       (if getOutcomeProbability st t ≠ 0 ∧ getOutcomeProbability st t ≤ 0.1 then 2 else 0)
     else 0)
  max 1 (min 10 s7)

/-- _calculate_percentile over the global recent trade sizes. -/
def calculatePercentile (cfg : DetectorConfig) (sizes : List ℚ) (value : ℚ) : Option ℚ :=
  if sizes.length < cfg.min_trades_for_stats then none
  else some (((sizes.filter (fun x => decide (x < value))).length : ℚ) / (sizes.length : ℚ) * 100)

/-- The trades of the market's recent list that fall inside the coordination
window and come from a different address (window_trades in
_detect_cluster_activity). -/
def windowTrades (cfg : DetectorConfig) (recent : List (String × ℤ × ℚ)) (t : Trade) :
    List (String × ℤ × ℚ) :=
  recent.filter (fun e =>
    decide (t.timestamp - cfg.cluster_time_window < e.2.1) && decide (e.1 ≠ t.trader_address))

/-- The window trades whose size is within 50–200 percent of this trade
(related_wallets in _detect_cluster_activity; the size ratio is 0 when the
trade amount is nonpositive, exactly as in the source). -/
def relatedWallets (cfg : DetectorConfig) (recent : List (String × ℤ × ℚ)) (t : Trade) :
    List String :=
  ((windowTrades cfg recent t).filter (fun e =>
    let r := if 0 < t.amount_usd then e.2.2 / t.amount_usd else 0
    decide ((1/2 : ℚ) ≤ r) && decide (r ≤ 2))).map (·.1)

/-- _detect_cluster_activity: the related-wallet list (the Python frozenset of
the trader plus the related wallets becomes a duplicate-free list; only its
size is consumed by analyze_trade). -/
def detectClusterActivity (cfg : DetectorConfig) (recent : List (String × ℤ × ℚ))
    (t : Trade) : Option (List String) :=
  if recent.length < 2 then none
  else if windowTrades cfg recent t = [] then none
  else if 1 ≤ (relatedWallets cfg recent t).length ∧ (1000 : ℚ) ≤ t.amount_usd then
    some (([t.trader_address] ++ relatedWallets cfg recent t).dedup)
  else none

/-- A triggered condition of the battery: (alert_type, message, severity score).
The dynamic numeric parts of the Python f-string messages are elided; the
per-type message text is kept so that the consolidation order is observable. -/
abbrev Trigger := String × String × ℤ

/-- Detector 1: fixed-threshold whale trade. -/
def whaleSegment (cfg : DetectorConfig) (st : DetectorState) (t : Trade)
    (profile : WalletProfile) (now : ℤ) : List Trigger :=
  if cfg.whale_threshold_usd ≤ t.amount_usd then
    [("WHALE_TRADE", "WHALE ALERT", calculateSeverityScore cfg st t profile "WHALE_TRADE" now)]
  else []

/-- Detector 2: statistically unusual trade against the global size window. -/
def unusualSegment (cfg : DetectorConfig) (sizes : List ℚ) (amount : ℚ) : List Trigger :=
  if zScoreDefined cfg sizes ∧ zAtLeast sizes amount cfg.std_multiplier
      ∧ amount < cfg.whale_threshold_usd then
    [("UNUSUAL_SIZE", "UNUSUAL TRADE",
      ((if zLess sizes amount (cfg.std_multiplier + 2) then 6 else 8) : ℤ))]
  else []

/-- Detector 4: new wallet making a significant trade (skipped for anonymous
traders). -/
def newWalletSegment (cfg : DetectorConfig) (profile : WalletProfile) (amount : ℚ)
    (anon : Bool) : List Trigger :=
  if profile.isNewWallet ∧ cfg.new_wallet_threshold_usd ≤ amount ∧ anon = false then
    [("NEW_WALLET", "NEW WALLET", ((if (5000 : ℚ) ≤ amount then 8 else 6) : ℤ))]
  else []

/-- Detector 6: smart-money wallet (skipped for anonymous traders). -/
def smartMoneySegment (profile : WalletProfile) (amount : ℚ) (anon : Bool) : List Trigger :=
  if profile.isSmartMoney ∧ (500 : ℚ) ≤ amount ∧ anon = false then
    [("SMART_MONEY", "SMART MONEY", (9 : ℤ))]
  else []

/-- Detector 6b: VIP wallet, any trade (skipped for anonymous traders). -/
def vipSegment (cfg : DetectorConfig) (profile : WalletProfile) (anon : Bool) : List Trigger :=
  if anon = false ∧
      profile.isVip cfg.vip_min_volume cfg.vip_min_win_rate cfg.vip_min_large_trades then
    [("VIP_WALLET", "VIP WALLET", (8 : ℤ))]
  else []

/-- Detector 7: repeat actor (skipped for anonymous traders). -/
def repeatSegment (profile : WalletProfile) (now : ℤ) (amount : ℚ) (anon : Bool) : List Trigger :=
  if profile.isRepeatActor now ∧ (1000 : ℚ) ≤ amount ∧ anon = false then
    [("REPEAT_ACTOR", "REPEAT ACTOR", (7 : ℤ))]
  else []

/-- Detector 8: heavy actor (skipped for anonymous traders). -/
def heavySegment (profile : WalletProfile) (now : ℤ) (amount : ℚ) (anon : Bool) : List Trigger :=
  if profile.isHeavyActor now ∧ (500 : ℚ) ≤ amount ∧ anon = false then
    [("HEAVY_ACTOR", "HEAVY ACTOR", (8 : ℤ))]
  else []

/-- Detector 12: cluster activity, given the already-computed related-wallet
set (None for anonymous traders). -/
def clusterSegment (clusterW : Option (List String)) (amount : ℚ) : List Trigger :=
  match clusterW with
  | some ws =>
      if 2 ≤ ws.length ∧ (2000 : ℚ) ≤ amount then
        [("CLUSTER_ACTIVITY", "CLUSTER DETECTED", (9 : ℤ))]
      else []
  | none => []

/-- Detector 13: high-impact trade against the market's hourly volume. -/
def impactSegment (st : DetectorState) (t : Trade) (now : ℤ) : List Trigger :=
  if (1/4 : ℚ) ≤ impactOf st t now ∧ (1000 : ℚ) ≤ t.amount_usd then
    [("HIGH_IMPACT", "HIGH IMPACT", ((if (1/2 : ℚ) ≤ impactOf st t now then 8 else 7) : ℤ))]
  else []

/-- Detector 14: entity activity, given the engine's answer for this wallet
(None for anonymous traders). -/
def entitySegment (entity : Option EntityView) (amount : ℚ) : List Trigger :=
  match entity with
  | some e =>
      if 2 ≤ e.wallet_count ∧ (1000 : ℚ) ≤ amount then
        [("ENTITY_ACTIVITY", "ENTITY DETECTED", (9 : ℤ))]
      else []
  | none => []

/-- The full battery of analyze_trade, in source order, producing the
triggered_conditions list.  Detectors 3, 5, 9, 10 and 11 (market anomaly,
focused wallet, extreme confidence, whale exit, contrarian) are commented out
in the source and therefore absent.  Identity-dependent detectors are guarded
by the anonymous-trader check exactly where the source guards them. -/
def batteryTriggers (cfg : DetectorConfig) (st : DetectorState) (t : Trade)
    (q : Option String) (now : ℤ) : List Trigger :=
  let profile := updateWalletProfile cfg st.wallet_profiles t q
  let anon := isAnonymousTrader t.trader_address
  whaleSegment cfg st t profile now
  ++ unusualSegment cfg (updatedTradeSizes st.recent_trade_sizes t.amount_usd) t.amount_usd
  ++ newWalletSegment cfg profile t.amount_usd anon
  ++ smartMoneySegment profile t.amount_usd anon
  ++ vipSegment cfg profile anon
  ++ repeatSegment profile now t.amount_usd anon
  ++ heavySegment profile now t.amount_usd anon
  ++ clusterSegment
       (if anon then none else detectClusterActivity cfg (updatedRecentTrades cfg st t now) t)
       t.amount_usd
  ++ impactSegment st t now
  ++ entitySegment (if anon then none else st.entity_for_wallet t.trader_address) t.amount_usd

/-- score_to_severity: numeric score to categorical severity. -/
def scoreToSeverity (score : ℤ) : String :=
  if score ≤ 3 then "LOW" else if score ≤ 6 then "MEDIUM" else "HIGH"

/-- Python max over the scores of a nonempty trigger list (0 for the empty
list, which the caller rules out). -/
def maxScoreOf : List Trigger → ℤ
  | [] => 0
  | c :: rest => rest.foldl (fun a x => max a x.2.2) c.2.2

/-- The consolidated WhaleAlert (the z_score context field is omitted from the
embedding: it is the irrational z-score and no claim touches it). -/
structure WhaleAlert where
  id : String
  alert_types : List String
  severity : String
  severity_score : ℤ
  trade : Trade
  wallet_profile : Option WalletProfile
  messages : List String
  timestamp : ℤ
  trade_size_percentile : Option ℚ
  market_question : Option String
  is_sports : Bool
  market_url : Option String
  category : String
  position_action : String

/-- The position action analyze_trade computes BEFORE updating the wallet
profile: the existing profile classifies the trade, a missing profile means
OPENING. -/
def positionActionOf (st : DetectorState) (t : Trade) : String :=
  match st.wallet_profiles t.trader_address with
  | some p => p.getPositionAction t.market_id t.outcome t.side
  | none => "OPENING"

/-- The market category analyze_trade uses: the cached category, or the one
auto-detected (and cached) from the question text and market id. -/
def marketCategoryOf (st : DetectorState) (t : Trade) (q : Option String) : String :=
  match st.market_categories t.market_id with
  | some c => c
  | none => detectCategoryFromText q t.market_id

/-- The filter applied to triggered_conditions: a trigger survives when the
trade reaches min_alert_threshold_usd or its type is exempt. -/
def survivingTriggers (cfg : DetectorConfig) (st : DetectorState) (t : Trade)
    (q : Option String) (now : ℤ) : List Trigger :=
  (batteryTriggers cfg st t q now).filter
    (fun c => decide (cfg.min_alert_threshold_usd ≤ t.amount_usd) || decide (c.1 ∈ exemptAlertTypes))

/-- The multi-signal gate: at least one exempt surviving type, or at least
min_triggers_required surviving triggers. -/
def multiSignalPass (cfg : DetectorConfig) (types : List String) : Prop :=
  (∃ ty ∈ types, ty ∈ exemptAlertTypes) ∨ cfg.min_triggers_required ≤ types.length

instance (cfg : DetectorConfig) (types : List String) : Decidable (multiSignalPass cfg types) := by
  unfold multiSignalPass; infer_instance

/-- The crypto category gate: on a Crypto market, a below-threshold trade whose
surviving types contain no crypto-exempt type is suppressed. -/
def cryptoSuppressed (cfg : DetectorConfig) (category : String) (amount : ℚ)
    (types : List String) : Prop :=
  category = "Crypto" ∧ amount < cfg.crypto_min_threshold_usd
  ∧ ¬ ∃ ty ∈ types, ty ∈ cryptoExemptTypes

instance (cfg : DetectorConfig) (category : String) (amount : ℚ) (types : List String) :
    Decidable (cryptoSuppressed cfg category amount types) := by
  unfold cryptoSuppressed; infer_instance

/-- The consolidated alert built from the surviving triggers (source lines
building the WhaleAlert literal in analyze_trade). -/
def consolidate (cfg : DetectorConfig) (st : DetectorState) (t : Trade)
    (q : Option String) (now : ℤ) (filtered : List Trigger) : WhaleAlert :=
  { id := "consolidated_" ++ t.id
    alert_types := filtered.map (·.1)
    severity := scoreToSeverity (maxScoreOf filtered)
    severity_score := maxScoreOf filtered
    trade := t
    wallet_profile := some (updateWalletProfile cfg st.wallet_profiles t q)
    messages := filtered.map (·.2.1)
    timestamp := now
    trade_size_percentile :=
      calculatePercentile cfg (updatedTradeSizes st.recent_trade_sizes t.amount_usd) t.amount_usd
    market_question := q
    is_sports := isSportsMarket q t.market_id
    market_url := st.market_urls t.market_id
    category := marketCategoryOf st t q
    position_action := positionActionOf st t }

/-- analyze_trade.  The source returns a list with zero or one consolidated
alert; the embedding returns an Option.  The guard order is the source order:
sports filter, high-frequency filter, empty battery / empty surviving list,
multi-signal gate, crypto category gate.  (The source checks the empty battery
before filtering; since filtering the empty list is empty, the two early
returns collapse into one.) -/
def analyzeTrade (cfg : DetectorConfig) (st : DetectorState) (t : Trade)
    (q : Option String) (now : ℤ) : Option WhaleAlert :=
  if cfg.exclude_sports && isSportsMarket q t.market_id then none
  else if isHighFrequencyMarket q t.market_id then none
  else if survivingTriggers cfg st t q now = [] then none
  else if ¬ multiSignalPass cfg ((survivingTriggers cfg st t q now).map (·.1)) then none
  else if cryptoSuppressed cfg (marketCategoryOf st t q) t.amount_usd
      ((survivingTriggers cfg st t q now).map (·.1)) then none
  else some (consolidate cfg st t q now (survivingTriggers cfg st t q now))

/-! ### Membership lemmas for the battery -/

lemma mem_ite_singleton {α : Type} {c : Prop} [Decidable c] {x y : α}
    (h : y ∈ (if c then [x] else [])) : c ∧ y = x := by
  by_cases hc : c
  · refine ⟨hc, ?_⟩
    simpa [hc] using h
  · simp [hc] at h

lemma mem_whaleSegment {cfg st t profile now} {c : Trigger}
    (h : c ∈ whaleSegment cfg st t profile now) :
    c.1 = "WHALE_TRADE" ∧ cfg.whale_threshold_usd ≤ t.amount_usd := by
  rcases mem_ite_singleton h with ⟨hc, rfl⟩
  exact ⟨rfl, hc⟩

lemma mem_unusualSegment {cfg sizes amount} {c : Trigger}
    (h : c ∈ unusualSegment cfg sizes amount) :
    c.1 = "UNUSUAL_SIZE" ∧ amount < cfg.whale_threshold_usd := by
  rcases mem_ite_singleton h with ⟨hc, rfl⟩
  exact ⟨rfl, hc.2.2⟩

lemma mem_newWalletSegment {cfg profile amount anon} {c : Trigger}
    (h : c ∈ newWalletSegment cfg profile amount anon) :
    c.1 = "NEW_WALLET" ∧ cfg.new_wallet_threshold_usd ≤ amount ∧ anon = false := by
  rcases mem_ite_singleton h with ⟨hc, rfl⟩
  exact ⟨rfl, hc.2.1, hc.2.2⟩

lemma mem_smartMoneySegment {profile amount anon} {c : Trigger}
    (h : c ∈ smartMoneySegment profile amount anon) :
    c.1 = "SMART_MONEY" ∧ (500 : ℚ) ≤ amount ∧ anon = false := by
  rcases mem_ite_singleton h with ⟨hc, rfl⟩
  exact ⟨rfl, hc.2.1, hc.2.2⟩

lemma mem_vipSegment {cfg profile anon} {c : Trigger}
    (h : c ∈ vipSegment cfg profile anon) :
    c.1 = "VIP_WALLET" ∧ anon = false := by
  rcases mem_ite_singleton h with ⟨hc, rfl⟩
  exact ⟨rfl, hc.1⟩

lemma mem_repeatSegment {profile now amount anon} {c : Trigger}
    (h : c ∈ repeatSegment profile now amount anon) :
    c.1 = "REPEAT_ACTOR" ∧ (1000 : ℚ) ≤ amount ∧ anon = false := by
  rcases mem_ite_singleton h with ⟨hc, rfl⟩
  exact ⟨rfl, hc.2.1, hc.2.2⟩

lemma mem_heavySegment {profile now amount anon} {c : Trigger}
    (h : c ∈ heavySegment profile now amount anon) :
    c.1 = "HEAVY_ACTOR" ∧ (500 : ℚ) ≤ amount ∧ anon = false := by
  rcases mem_ite_singleton h with ⟨hc, rfl⟩
  exact ⟨rfl, hc.2.1, hc.2.2⟩

lemma mem_clusterSegment {cw : Option (List String)} {amount : ℚ} {c : Trigger}
    (h : c ∈ clusterSegment cw amount) :
    c.1 = "CLUSTER_ACTIVITY" ∧ (2000 : ℚ) ≤ amount
      ∧ ∃ ws, cw = some ws ∧ 2 ≤ ws.length := by
  cases cw with
  | none => simp [clusterSegment] at h
  | some ws =>
      rcases mem_ite_singleton (by simpa [clusterSegment] using h) with ⟨hc, rfl⟩
      exact ⟨rfl, hc.2, ws, rfl, hc.1⟩

lemma mem_impactSegment {st t now} {c : Trigger}
    (h : c ∈ impactSegment st t now) :
    c.1 = "HIGH_IMPACT" ∧ (1000 : ℚ) ≤ t.amount_usd := by
  rcases mem_ite_singleton h with ⟨hc, rfl⟩
  exact ⟨rfl, hc.2⟩

lemma mem_entitySegment {ev : Option EntityView} {amount : ℚ} {c : Trigger}
    (h : c ∈ entitySegment ev amount) :
    c.1 = "ENTITY_ACTIVITY" ∧ (1000 : ℚ) ≤ amount ∧ ∃ e, ev = some e := by
  cases ev with
  | none => simp [entitySegment] at h
  | some e =>
      rcases mem_ite_singleton (by simpa [entitySegment] using h) with ⟨hc, rfl⟩
      exact ⟨rfl, hc.2, e, rfl⟩

/-- Case analysis over the battery: every triggered condition carries one of
the ten live alert types and satisfies that detector's amount gate and (for
identity-dependent detectors) the anonymous-trader gate. -/
lemma mem_battery_cases {cfg : DetectorConfig} {st : DetectorState} {t : Trade}
    {q : Option String} {now : ℤ} {c : Trigger}
    (h : c ∈ batteryTriggers cfg st t q now) :
    (c.1 = "WHALE_TRADE" ∧ cfg.whale_threshold_usd ≤ t.amount_usd)
    ∨ (c.1 = "UNUSUAL_SIZE" ∧ t.amount_usd < cfg.whale_threshold_usd)
    ∨ (c.1 = "NEW_WALLET" ∧ cfg.new_wallet_threshold_usd ≤ t.amount_usd
        ∧ isAnonymousTrader t.trader_address = false)
    ∨ (c.1 = "SMART_MONEY" ∧ (500 : ℚ) ≤ t.amount_usd
        ∧ isAnonymousTrader t.trader_address = false)
    ∨ (c.1 = "VIP_WALLET" ∧ isAnonymousTrader t.trader_address = false)
    ∨ (c.1 = "REPEAT_ACTOR" ∧ (1000 : ℚ) ≤ t.amount_usd
        ∧ isAnonymousTrader t.trader_address = false)
    ∨ (c.1 = "HEAVY_ACTOR" ∧ (500 : ℚ) ≤ t.amount_usd
        ∧ isAnonymousTrader t.trader_address = false)
    ∨ (c.1 = "CLUSTER_ACTIVITY" ∧ (2000 : ℚ) ≤ t.amount_usd
        ∧ isAnonymousTrader t.trader_address = false)
    ∨ (c.1 = "HIGH_IMPACT" ∧ (1000 : ℚ) ≤ t.amount_usd)
    ∨ (c.1 = "ENTITY_ACTIVITY" ∧ (1000 : ℚ) ≤ t.amount_usd
        ∧ isAnonymousTrader t.trader_address = false) := by
  unfold batteryTriggers at h
  simp only [List.mem_append] at h
  rcases h with ((((((((h | h) | h) | h) | h) | h) | h) | h) | h) | h
  · exact Or.inl (mem_whaleSegment h)
  · exact Or.inr (Or.inl (mem_unusualSegment h))
  · exact Or.inr (Or.inr (Or.inl (mem_newWalletSegment h)))
  · exact Or.inr (Or.inr (Or.inr (Or.inl (mem_smartMoneySegment h))))
  · exact Or.inr (Or.inr (Or.inr (Or.inr (Or.inl (mem_vipSegment h)))))
  · exact Or.inr (Or.inr (Or.inr (Or.inr (Or.inr (Or.inl (mem_repeatSegment h))))))
  · exact Or.inr (Or.inr (Or.inr (Or.inr (Or.inr (Or.inr (Or.inl (mem_heavySegment h)))))))
  · refine Or.inr (Or.inr (Or.inr (Or.inr (Or.inr (Or.inr (Or.inr (Or.inl ?_)))))))
    rcases mem_clusterSegment h with ⟨h1, h2, ws, hws, _⟩
    refine ⟨h1, h2, ?_⟩
    by_cases ha : isAnonymousTrader t.trader_address
    · simp [ha] at hws
    · simpa using ha
  · exact Or.inr (Or.inr (Or.inr (Or.inr (Or.inr (Or.inr (Or.inr (Or.inr (Or.inl
      (mem_impactSegment h)))))))))
  · refine Or.inr (Or.inr (Or.inr (Or.inr (Or.inr (Or.inr (Or.inr (Or.inr (Or.inr ?_))))))))
    rcases mem_entitySegment h with ⟨h1, h2, e, he⟩
    refine ⟨h1, h2, ?_⟩
    by_cases ha : isAnonymousTrader t.trader_address
    · simp [ha] at he
    · simpa using ha

/-- Membership in the surviving list unpacked: a battery trigger that passes
the minimum-threshold-or-exempt filter. -/
lemma mem_survivingTriggers {cfg st t q now} {c : Trigger} :
    c ∈ survivingTriggers cfg st t q now ↔
      c ∈ batteryTriggers cfg st t q now
      ∧ (cfg.min_alert_threshold_usd ≤ t.amount_usd ∨ c.1 ∈ exemptAlertTypes) := by
  unfold survivingTriggers
  simp [List.mem_filter]

/-! ### Properties of the consolidated maximum score -/

lemma foldl_max_le_init (l : List Trigger) (a : ℤ) :
    a ≤ l.foldl (fun x c => max x c.2.2) a := by
  induction l generalizing a with
  | nil => simp
  | cons c tl ih => exact le_trans (le_max_left _ _) (ih (max a c.2.2))

lemma foldl_max_mem (l : List Trigger) (a : ℤ) :
    l.foldl (fun x c => max x c.2.2) a = a
    ∨ ∃ c ∈ l, l.foldl (fun x c => max x c.2.2) a = c.2.2 := by
  induction l generalizing a with
  | nil => exact Or.inl rfl
  | cons c tl ih =>
      rcases ih (max a c.2.2) with h | ⟨d, hd, he⟩
      · rcases max_choice a c.2.2 with hm | hm
        · exact Or.inl (by simpa [hm] using h)
        · exact Or.inr ⟨c, List.mem_cons_self .., by simpa [hm] using h⟩
      · exact Or.inr ⟨d, List.mem_cons_of_mem _ hd, he⟩

lemma le_foldl_max (l : List Trigger) (a : ℤ) {c : Trigger} (hc : c ∈ l) :
    c.2.2 ≤ l.foldl (fun x c => max x c.2.2) a := by
  induction l generalizing a with
  | nil => cases hc
  | cons d tl ih =>
      rcases List.mem_cons.mp hc with rfl | hc'
      · exact le_trans (le_max_right a c.2.2) (foldl_max_le_init tl _)
      · exact ih (max a d.2.2) hc'

/-- maxScoreOf of a nonempty list is attained by a member and bounds all
members. -/
lemma maxScoreOf_spec {l : List Trigger} (h : l ≠ []) :
    (∃ c ∈ l, maxScoreOf l = c.2.2) ∧ ∀ c ∈ l, c.2.2 ≤ maxScoreOf l := by
  cases l with
  | nil => exact absurd rfl h
  | cons c tl =>
      constructor
      · rcases foldl_max_mem tl c.2.2 with h1 | ⟨d, hd, he⟩
        · exact ⟨c, List.mem_cons_self .., h1⟩
        · exact ⟨d, List.mem_cons_of_mem _ hd, he⟩
      · intro d hd
        rcases List.mem_cons.mp hd with rfl | hd'
        · exact foldl_max_le_init tl d.2.2
        · exact le_foldl_max tl _ hd'

/-! ### Claim C1: trigger filtering and the multi-signal gate -/

/-- Under the default configuration, the crypto category gate can never
suppress an alert: a surviving trigger on a trade below the crypto threshold
(974 < min_alert_threshold 2000) must be of an exempt type, the only exempt
type whose detector can fire below 974 dollars is VIP_WALLET, and VIP_WALLET
is itself crypto-exempt. -/
lemma default_no_crypto_suppression {st : DetectorState} {t : Trade}
    {q : Option String} {now : ℤ}
    (hne : survivingTriggers defaultConfig st t q now ≠ []) :
    ¬ cryptoSuppressed defaultConfig (marketCategoryOf st t q) t.amount_usd
        ((survivingTriggers defaultConfig st t q now).map (·.1)) := by
  rintro ⟨_, hamt, hno⟩
  obtain ⟨c, hc⟩ := List.exists_mem_of_ne_nil _ hne
  rcases mem_survivingTriggers.mp hc with ⟨hb, hsur⟩
  have h974 : t.amount_usd < 974 := hamt
  have hex : c.1 ∈ exemptAlertTypes := by
    rcases hsur with h2000 | hex
    · exfalso
      have : (2000 : ℚ) ≤ t.amount_usd := h2000
      linarith
    · exact hex
  rcases mem_battery_cases hb with ⟨h1, h2⟩ | ⟨h1, _⟩ | ⟨h1, _, _⟩ | ⟨h1, _, _⟩
    | ⟨h1, _⟩ | ⟨h1, _, _⟩ | ⟨h1, _, _⟩ | ⟨h1, h2, _⟩ | ⟨h1, _⟩ | ⟨h1, h2, _⟩
  · have : (10000 : ℚ) ≤ t.amount_usd := h2
    linarith
  · rw [h1] at hex; simp [exemptAlertTypes] at hex
  · rw [h1] at hex; simp [exemptAlertTypes] at hex
  · rw [h1] at hex; simp [exemptAlertTypes] at hex
  · exact hno ⟨"VIP_WALLET", List.mem_map.mpr ⟨c, hc, h1⟩, by simp [cryptoExemptTypes]⟩
  · rw [h1] at hex; simp [exemptAlertTypes] at hex
  · rw [h1] at hex; simp [exemptAlertTypes] at hex
  · have : (2000 : ℚ) ≤ t.amount_usd := h2
    linarith
  · rw [h1] at hex; simp [exemptAlertTypes] at hex
  · have : (1000 : ℚ) ≤ t.amount_usd := h2
    linarith

/-- C1: for every analyzed trade (one that is not short-circuited by the
sports or high-frequency filters), a trigger survives only if its type is in
the exempt set or the trade reaches min_alert_threshold_usd; and an alert is
emitted precisely when the surviving list is nonempty and either contains an
exempt type or has length at least min_triggers_required = 2.  In particular
a single surviving non-exempt trigger yields no alert while a single
surviving exempt trigger yields an alert. -/
theorem c1_filter_and_multi_signal_gate (st : DetectorState) (t : Trade)
    (q : Option String) (now : ℤ)
    (hs : (defaultConfig.exclude_sports && isSportsMarket q t.market_id) = false)
    (hf : isHighFrequencyMarket q t.market_id = false) :
    (∀ c ∈ survivingTriggers defaultConfig st t q now,
      c.1 ∈ exemptAlertTypes ∨ defaultConfig.min_alert_threshold_usd ≤ t.amount_usd)
    ∧ ((analyzeTrade defaultConfig st t q now).isSome ↔
        (survivingTriggers defaultConfig st t q now ≠ []
          ∧ ((∃ ty ∈ (survivingTriggers defaultConfig st t q now).map (·.1),
               ty ∈ exemptAlertTypes)
             ∨ 2 ≤ (survivingTriggers defaultConfig st t q now).length)))
    ∧ (∀ c, survivingTriggers defaultConfig st t q now = [c] →
        c.1 ∉ exemptAlertTypes → analyzeTrade defaultConfig st t q now = none)
    ∧ (∀ c, survivingTriggers defaultConfig st t q now = [c] →
        c.1 ∈ exemptAlertTypes → (analyzeTrade defaultConfig st t q now).isSome) := by
  have hmain : (analyzeTrade defaultConfig st t q now).isSome ↔
      (survivingTriggers defaultConfig st t q now ≠ []
        ∧ ((∃ ty ∈ (survivingTriggers defaultConfig st t q now).map (·.1),
             ty ∈ exemptAlertTypes)
           ∨ 2 ≤ (survivingTriggers defaultConfig st t q now).length)) := by
    unfold analyzeTrade
    rw [hs, hf]
    simp only [Bool.false_eq_true, if_false]
    by_cases hne : survivingTriggers defaultConfig st t q now = []
    · simp [hne]
    · rw [if_neg hne]
      by_cases hms : multiSignalPass defaultConfig
          ((survivingTriggers defaultConfig st t q now).map (·.1))
      · rw [if_neg (not_not_intro hms), if_neg (default_no_crypto_suppression hne)]
        have hms' : (∃ ty ∈ (survivingTriggers defaultConfig st t q now).map (·.1),
            ty ∈ exemptAlertTypes)
            ∨ 2 ≤ (survivingTriggers defaultConfig st t q now).length := by
          rcases hms with h | h
          · exact Or.inl h
          · exact Or.inr (by simpa using h)
        exact ⟨fun _ => ⟨hne, hms'⟩, fun _ => rfl⟩
      · rw [if_pos hms]
        have hms' : ¬ ((∃ ty ∈ (survivingTriggers defaultConfig st t q now).map (·.1),
            ty ∈ exemptAlertTypes)
            ∨ 2 ≤ (survivingTriggers defaultConfig st t q now).length) := by
          intro hcon
          apply hms
          rcases hcon with h | h
          · exact Or.inl h
          · exact Or.inr (by simpa using h)
        constructor
        · intro hcon
          simp at hcon
        · rintro ⟨_, h⟩
          exact absurd h hms'
  refine ⟨?_, hmain, ?_, ?_⟩
  · intro c hc
    exact (mem_survivingTriggers.mp hc).2.symm
  · intro c hcs hnex
    have : ¬ (analyzeTrade defaultConfig st t q now).isSome := by
      rw [hmain, hcs]
      rintro ⟨_, h | h⟩
      · rcases h with ⟨ty, hty, htyex⟩
        simp only [List.map_cons, List.map_nil, List.mem_singleton] at hty
        exact hnex (hty ▸ htyex)
      · simp at h
    simpa [Option.not_isSome_iff_eq_none] using this
  · intro c hcs hex
    rw [hmain, hcs]
    exact ⟨by simp, Or.inl ⟨c.1, by simp, hex⟩⟩

/-- Witness inputs for the C1 theorem: an empty detector state and a 25000
dollar buy by an identified wallet on a politics-free market id. -/
def wState1 : DetectorState :=
  { wallet_profiles := fun _ => none
    recent_trade_sizes := []
    market_questions := fun _ => none
    market_urls := fun _ => none
    market_categories := fun _ => none
    market_prices := fun _ => none
    recent_market_trades := fun _ => []
    market_hourly_volume := fun _ => none
    entity_for_wallet := fun _ => none }

def wTrade1 : Trade :=
  { id := "t1", market_id := "m1", trader_address := "0xa", outcome := "Yes",
    side := "buy", size := 50000, price := 0.5, amount_usd := 25000, timestamp := 0 }

/-- Witness for C1 at a concrete input: the hypotheses hold and the trade
(which produces surviving exempt WHALE_TRADE among its triggers) is emitted. -/
theorem c1_filter_and_multi_signal_gate_witness :
    (defaultConfig.exclude_sports && isSportsMarket none "m1") = false
    ∧ isHighFrequencyMarket none "m1" = false
    ∧ (analyzeTrade defaultConfig wState1 wTrade1 none 0).isSome :=
  ⟨by decide, by decide,
    ((c1_filter_and_multi_signal_gate wState1 wTrade1 none 0 (by decide) (by decide)).2.1).mpr
      ⟨by decide, by decide⟩⟩

/-! ### Claims C2 and C3: the emitted alert's shape -/

/-- An emitted alert is exactly the consolidation of the (nonempty) surviving
trigger list. -/
lemma analyzeTrade_eq_some {cfg : DetectorConfig} {st : DetectorState} {t : Trade}
    {q : Option String} {now : ℤ} {a : WhaleAlert}
    (h : analyzeTrade cfg st t q now = some a) :
    a = consolidate cfg st t q now (survivingTriggers cfg st t q now)
    ∧ survivingTriggers cfg st t q now ≠ [] := by
  unfold analyzeTrade at h
  split_ifs at h with h1 h2 h3 h4 h5
  exact ⟨(Option.some.inj h).symm, h3⟩

set_option maxHeartbeats 1000000 in
/-- C2: for every emitted alert, severity_score is the maximum score among the
surviving triggers, severity is the categorical mapping of that score, and the
alert_types and messages lists are the surviving triggers' types and messages
in battery order (the surviving list being an order-preserving sublist of the
battery output). -/
theorem c2_severity_and_order (cfg : DetectorConfig) (st : DetectorState) (t : Trade)
    (q : Option String) (now : ℤ) (a : WhaleAlert)
    (h : analyzeTrade cfg st t q now = some a) :
    a.alert_types = (survivingTriggers cfg st t q now).map (·.1)
    ∧ a.messages = (survivingTriggers cfg st t q now).map (·.2.1)
    ∧ List.Sublist (survivingTriggers cfg st t q now) (batteryTriggers cfg st t q now)
    ∧ (∃ c ∈ survivingTriggers cfg st t q now, a.severity_score = c.2.2)
    ∧ (∀ c ∈ survivingTriggers cfg st t q now, c.2.2 ≤ a.severity_score)
    ∧ a.severity = scoreToSeverity a.severity_score := by
  obtain ⟨ha, hne⟩ := analyzeTrade_eq_some h
  subst ha
  exact ⟨rfl, rfl, List.filter_sublist _, (maxScoreOf_spec hne).1,
    (maxScoreOf_spec hne).2, rfl⟩

/-- The concrete alert emitted for the C1/C2 witness trade. -/
def wAlert2 : WhaleAlert :=
  (analyzeTrade defaultConfig wState1 wTrade1 none 0).getD
    (consolidate defaultConfig wState1 wTrade1 none 0 [])

set_option maxHeartbeats 2000000 in
/-- Witness for C2 at a concrete emitted alert. -/
theorem c2_severity_and_order_witness :
    analyzeTrade defaultConfig wState1 wTrade1 none 0 = some wAlert2
    ∧ wAlert2.severity = scoreToSeverity wAlert2.severity_score :=
  ⟨rfl, (c2_severity_and_order defaultConfig wState1 wTrade1 none 0 wAlert2 rfl).2.2.2.2.2⟩

/-- C3: the position action carried by an emitted alert is the one computed
from the wallet state before the trade is applied; with a prior positive net
position a buy classifies as ADDING and a sell as CLOSING (independently of
the trade amount, which positionActionOf never reads); with no prior profile
or a zero net position the action is OPENING. -/
theorem c3_position_action (cfg : DetectorConfig) (st : DetectorState) (t : Trade)
    (q : Option String) (now : ℤ) :
    (∀ a, analyzeTrade cfg st t q now = some a → a.position_action = positionActionOf st t)
    ∧ (∀ p, st.wallet_profiles t.trader_address = some p →
        0 < (p.getPosition t.market_id t.outcome).net_shares →
        (strLower t.side = "buy" → positionActionOf st t = "ADDING")
        ∧ (strLower t.side = "sell" → positionActionOf st t = "CLOSING"))
    ∧ ((st.wallet_profiles t.trader_address = none
        ∨ ∃ p, st.wallet_profiles t.trader_address = some p
            ∧ (p.getPosition t.market_id t.outcome).net_shares = 0) →
        positionActionOf st t = "OPENING") := by
  refine ⟨?_, ?_, ?_⟩
  · intro a h
    obtain ⟨ha, _⟩ := analyzeTrade_eq_some h
    subst ha
    rfl
  · intro p hp hpos
    have hne : (p.getPosition t.market_id t.outcome).net_shares ≠ 0 := ne_of_gt hpos
    have hact : positionActionOf st t = p.getPositionAction t.market_id t.outcome t.side := by
      unfold positionActionOf
      rw [hp]
    rw [hact]
    unfold WalletProfile.getPositionAction
    rw [if_neg hne, if_pos hpos]
    constructor
    · intro hb
      rw [if_pos hb]
    · intro hs
      rw [if_neg (by rw [hs]; decide)]
  · rintro (hnone | ⟨p, hp, hzero⟩)
    · unfold positionActionOf
      rw [hnone]
    · have hact : positionActionOf st t = p.getPositionAction t.market_id t.outcome t.side := by
        unfold positionActionOf
        rw [hp]
      rw [hact]
      unfold WalletProfile.getPositionAction
      rw [if_pos hzero]

/-- Witness profile for C3: a wallet long 2 net shares of (m1, Yes). -/
def wProf3 : WalletProfile :=
  { freshProfile "0xa" 0 with
    positions := fun m o =>
      if (m, o) = ("m1", "Yes") then some ⟨5, 10, 3, 5⟩ else none }

def wState3 : DetectorState :=
  { wState1 with wallet_profiles := fun a => if a = "0xa" then some wProf3 else none }

/-- Witness for C3: with the prior long position, the buy trade classifies as
ADDING. -/
theorem c3_position_action_witness :
    positionActionOf wState3 wTrade1 = "ADDING" :=
  ((c3_position_action defaultConfig wState3 wTrade1 none 0).2.1 wProf3 rfl
    (by norm_num [wProf3, wTrade1, WalletProfile.getPosition, Position.net_shares])).1 (by decide)

/-! ### Claim C7: anonymous-trader gating -/

/-- The identity-dependent alert types of the battery. -/
def identityAlertTypes : List String :=
  ["NEW_WALLET", "SMART_MONEY", "VIP_WALLET", "REPEAT_ACTOR",
   "HEAVY_ACTOR", "CLUSTER_ACTIVITY", "ENTITY_ACTIVITY"]

/-- C7: a trade by an anonymous-sentinel trader never produces any of the
seven identity-dependent trigger types, while the non-identity WHALE_TRADE
detector still fires whenever the amount reaches the whale threshold. -/
theorem c7_anonymous_gating (cfg : DetectorConfig) (st : DetectorState) (t : Trade)
    (q : Option String) (now : ℤ)
    (ha : isAnonymousTrader t.trader_address = true) :
    (∀ ty ∈ identityAlertTypes, ty ∉ (batteryTriggers cfg st t q now).map (·.1))
    ∧ (cfg.whale_threshold_usd ≤ t.amount_usd →
        "WHALE_TRADE" ∈ (batteryTriggers cfg st t q now).map (·.1)) := by
  constructor
  · intro ty hty hmem
    obtain ⟨c, hc, hty'⟩ := List.mem_map.mp hmem
    subst hty'
    rcases mem_battery_cases hc with ⟨h1, _⟩ | ⟨h1, _⟩ | ⟨_, _, h2⟩ | ⟨_, _, h2⟩
      | ⟨_, h2⟩ | ⟨_, _, h2⟩ | ⟨_, _, h2⟩ | ⟨_, _, h2⟩ | ⟨h1, _⟩ | ⟨_, _, h2⟩
    · rw [h1] at hty; simp [identityAlertTypes] at hty
    · rw [h1] at hty; simp [identityAlertTypes] at hty
    · rw [ha] at h2; exact Bool.noConfusion h2
    · rw [ha] at h2; exact Bool.noConfusion h2
    · rw [ha] at h2; exact Bool.noConfusion h2
    · rw [ha] at h2; exact Bool.noConfusion h2
    · rw [ha] at h2; exact Bool.noConfusion h2
    · rw [ha] at h2; exact Bool.noConfusion h2
    · rw [h1] at hty; simp [identityAlertTypes] at hty
    · rw [ha] at h2; exact Bool.noConfusion h2
  · intro hw
    refine List.mem_map.mpr
      ⟨("WHALE_TRADE", "WHALE ALERT",
        calculateSeverityScore cfg st t (updateWalletProfile cfg st.wallet_profiles t q)
          "WHALE_TRADE" now), ?_, rfl⟩
    have hbase : ("WHALE_TRADE", "WHALE ALERT",
        calculateSeverityScore cfg st t (updateWalletProfile cfg st.wallet_profiles t q)
          "WHALE_TRADE" now)
        ∈ whaleSegment cfg st t (updateWalletProfile cfg st.wallet_profiles t q) now := by
      rw [whaleSegment, if_pos hw]
      exact List.mem_singleton.mpr rfl
    exact List.mem_append_left _ (List.mem_append_left _ (List.mem_append_left _
      (List.mem_append_left _ (List.mem_append_left _ (List.mem_append_left _
      (List.mem_append_left _ (List.mem_append_left _ (List.mem_append_left _ hbase))))))))

/-- Witness trade for C7: a venue-anonymous 50000 dollar trade. -/
def wTrade7 : Trade :=
  { wTrade1 with trader_address := "KALSHI_ANON_42", amount_usd := 50000 }

/-- Witness for C7: the anonymous 50000 dollar trade triggers WHALE_TRADE but
no NEW_WALLET. -/
theorem c7_anonymous_gating_witness :
    isAnonymousTrader "KALSHI_ANON_42" = true
    ∧ "WHALE_TRADE" ∈ (batteryTriggers defaultConfig wState1 wTrade7 none 0).map (·.1)
    ∧ "NEW_WALLET" ∉ (batteryTriggers defaultConfig wState1 wTrade7 none 0).map (·.1) :=
  ⟨by decide,
   (c7_anonymous_gating defaultConfig wState1 wTrade7 none 0 (by decide)).2 (by decide),
   (c7_anonymous_gating defaultConfig wState1 wTrade7 none 0 (by decide)).1
     "NEW_WALLET" (by decide)⟩

/-! ### Claim C10: the impact ratio after recording the current trade -/

/-- C10: because analyze_trade records the current trade into the hourly
window before computing the impact ratio, a positive trade with a timestamp
inside the past hour sees an impact ratio of at most 1 (given the retained
window holds no negative amounts); when every prior entry lies outside the
hour (in particular for the first trade of a market) the ratio is exactly 1,
so HIGH_IMPACT (threshold 1/4) fires as soon as the amount reaches 1000. -/
theorem c10_impact_of_recorded_trade (cfg : DetectorConfig) (st : DetectorState)
    (t : Trade) (q : Option String) (now : ℤ)
    (hpos : 0 < t.amount_usd)
    (hts : now - 3600 < t.timestamp)
    (hnn : ∀ e ∈ priorWindow st t, 0 ≤ e.2) :
    impactOf st t now ≤ 1
    ∧ ((∀ e ∈ priorWindow st t, e.1 ≤ now - 3600) →
        impactOf st t now = 1
        ∧ ((1000 : ℚ) ≤ t.amount_usd →
            "HIGH_IMPACT" ∈ (batteryTriggers cfg st t q now).map (·.1))) := by
  have hsplit : updatedVolumeTrades st t now
      = (priorWindow st t).filter (fun e => decide (now - 3600 < e.1))
        ++ [(t.timestamp, t.amount_usd)] := by
    unfold updatedVolumeTrades
    rw [List.filter_append]
    congr 1
    simp [hts]
  have hvol : windowVolume (updatedVolumeTrades st t now)
      = windowVolume ((priorWindow st t).filter (fun e => decide (now - 3600 < e.1)))
        + t.amount_usd := by
    rw [hsplit]
    unfold windowVolume
    simp
  have hfree : 0 ≤ windowVolume ((priorWindow st t).filter (fun e => decide (now - 3600 < e.1))) := by
    unfold windowVolume
    apply List.sum_nonneg
    intro x hx
    obtain ⟨e, he, rfl⟩ := List.mem_map.mp hx
    exact hnn e (List.mem_filter.mp he).1
  have hge : t.amount_usd ≤ windowVolume (updatedVolumeTrades st t now) := by
    rw [hvol]; linarith
  have hvpos : 0 < windowVolume (updatedVolumeTrades st t now) := lt_of_lt_of_le hpos hge
  have himp : impactOf st t now = t.amount_usd / windowVolume (updatedVolumeTrades st t now) := by
    unfold impactOf
    rw [if_neg (not_le.mpr hvpos)]
  constructor
  · rw [himp]
    exact (div_le_one hvpos).mpr hge
  · intro hstale
    have hempty : (priorWindow st t).filter (fun e => decide (now - 3600 < e.1)) = [] := by
      apply List.filter_eq_nil_iff.mpr
      intro e he
      simpa using not_lt.mpr (hstale e he)
    have hone : impactOf st t now = 1 := by
      rw [himp, hvol, hempty]
      show t.amount_usd / (windowVolume [] + t.amount_usd) = 1
      unfold windowVolume
      simp
      exact div_self (ne_of_gt hpos)
    refine ⟨hone, ?_⟩
    intro h1000
    refine List.mem_map.mpr
      ⟨("HIGH_IMPACT", "HIGH IMPACT", ((if (1/2 : ℚ) ≤ impactOf st t now then 8 else 7) : ℤ)),
       ?_, rfl⟩
    have hbase : ("HIGH_IMPACT", "HIGH IMPACT",
        ((if (1/2 : ℚ) ≤ impactOf st t now then 8 else 7) : ℤ)) ∈ impactSegment st t now := by
      rw [impactSegment, if_pos ⟨by rw [hone]; norm_num, h1000⟩]
      exact List.mem_singleton.mpr rfl
    exact List.mem_append_left _ (List.mem_append_right _ hbase)

/-- Witness state for C10: the market has one stale window entry. -/
def wState10 : DetectorState :=
  { wState1 with market_hourly_volume := fun m =>
      if m = "m1" then some { trades := [(-90000, 7)], volume := 7, last_updated := -90000 }
      else none }

/-- Witness for C10: for the 25000 dollar trade at time 0 with only a stale
prior entry, the impact ratio is exactly 1 and HIGH_IMPACT fires. -/
theorem c10_impact_of_recorded_trade_witness :
    impactOf wState10 wTrade1 0 = 1
    ∧ "HIGH_IMPACT" ∈ (batteryTriggers defaultConfig wState10 wTrade1 none 0).map (·.1) := by
  have h := (c10_impact_of_recorded_trade defaultConfig wState10 wTrade1 none 0
    (by norm_num [wTrade1]) (by norm_num [wTrade1])
    (by simp [priorWindow, wState10, wTrade1])).2
    (by simp [priorWindow, wState10, wTrade1])
  exact ⟨h.1, h.2 (by norm_num [wTrade1])⟩

/-! ### Claim C4: the cluster-activity trigger -/

lemma two_le_length_of_mem_ne {α : Type} {l : List α} {a b : α}
    (ha : a ∈ l) (hb : b ∈ l) (hab : a ≠ b) : 2 ≤ l.length := by
  cases l with
  | nil => cases ha
  | cons x tl =>
      cases tl with
      | nil =>
          rw [List.mem_singleton] at ha hb
          exact absurd (ha.trans hb.symm) hab
      | cons y tl2 => simp only [List.length_cons]; omega

/-- State for the C4 counterexample: exactly one other wallet traded market m1
one minute earlier with the same 3000 dollar size. -/
def wState4 : DetectorState :=
  { wState1 with recent_market_trades := fun m =>
      if m = "m1" then [("0xb", (-60 : ℤ), (3000 : ℚ))] else [] }

def wTrade4 : Trade := { wTrade1 with amount_usd := 3000 }

/-- C4 counterexample: the claim requires at least 2 distinct other wallets,
but the code fires CLUSTER_ACTIVITY here although exactly one distinct other
wallet (0xb) traded the market within the window at a ratio-qualifying size. -/
theorem c4_cluster_counterexample :
    "CLUSTER_ACTIVITY" ∈ (batteryTriggers defaultConfig wState4 wTrade4 none 0).map (·.1)
    ∧ relatedWallets defaultConfig
        (updatedRecentTrades defaultConfig wState4 wTrade4 0) wTrade4 = ["0xb"] := by
  have hw : windowTrades defaultConfig
      (updatedRecentTrades defaultConfig wState4 wTrade4 0) wTrade4
      = [("0xb", (-60 : ℤ), (3000 : ℚ))] := by decide
  have hrel : relatedWallets defaultConfig
      (updatedRecentTrades defaultConfig wState4 wTrade4 0) wTrade4 = ["0xb"] := by
    unfold relatedWallets
    rw [hw]
    norm_num [wTrade4, wTrade1, List.filter_cons]
  have hdet : detectClusterActivity defaultConfig
      (updatedRecentTrades defaultConfig wState4 wTrade4 0) wTrade4
      = some (([wTrade4.trader_address] ++ ["0xb"]).dedup) := by
    unfold detectClusterActivity
    rw [hw, hrel]
    rw [if_neg (by decide), if_neg (by decide), if_pos ⟨by norm_num, by norm_num [wTrade4, wTrade1]⟩]
  refine ⟨?_, hrel⟩
  refine List.mem_map.mpr ⟨("CLUSTER_ACTIVITY", "CLUSTER DETECTED", (9 : ℤ)), ?_, rfl⟩
  have hanon : isAnonymousTrader wTrade4.trader_address = false := by decide
  have hbase : ("CLUSTER_ACTIVITY", "CLUSTER DETECTED", (9 : ℤ))
      ∈ clusterSegment
          (if isAnonymousTrader wTrade4.trader_address then none
           else detectClusterActivity defaultConfig
             (updatedRecentTrades defaultConfig wState4 wTrade4 0) wTrade4)
          wTrade4.amount_usd := by
    rw [hanon]
    simp only [Bool.false_eq_true, if_false]
    rw [hdet, clusterSegment]
    rw [if_pos ⟨by decide, by norm_num [wTrade4, wTrade1]⟩]
    exact List.mem_singleton.mpr rfl
  exact List.mem_append_left _ (List.mem_append_left _ (List.mem_append_right _ hbase))

/-- C4 amended: CLUSTER_ACTIVITY fires exactly when the trader is identified,
the trade is at least 2000 dollars, the market's updated recent-trade list
holds at least 2 entries, and AT LEAST ONE (not two) recorded entry from a
distinct wallet lies inside the coordination window with an amount between
half and double this trade's amount. -/
theorem c4_cluster_trigger_iff (cfg : DetectorConfig) (st : DetectorState) (t : Trade)
    (q : Option String) (now : ℤ) :
    ("CLUSTER_ACTIVITY" ∈ (batteryTriggers cfg st t q now).map (·.1)) ↔
      (isAnonymousTrader t.trader_address = false
       ∧ (2000 : ℚ) ≤ t.amount_usd
       ∧ 2 ≤ (updatedRecentTrades cfg st t now).length
       ∧ ∃ e ∈ updatedRecentTrades cfg st t now,
           e.1 ≠ t.trader_address
           ∧ t.timestamp - cfg.cluster_time_window < e.2.1
           ∧ t.amount_usd / 2 ≤ e.2.2 ∧ e.2.2 ≤ 2 * t.amount_usd) := by
  have hamt_pos : ∀ h2000 : (2000 : ℚ) ≤ t.amount_usd, (0 : ℚ) < t.amount_usd :=
    fun h2000 => lt_of_lt_of_le (by norm_num) h2000
  constructor
  · intro hmem
    obtain ⟨c, hc, hty⟩ := List.mem_map.mp hmem
    unfold batteryTriggers at hc
    simp only [List.mem_append] at hc
    rcases hc with ((((((((hc | hc) | hc) | hc) | hc) | hc) | hc) | hc) | hc) | hc
    · rw [(mem_whaleSegment hc).1] at hty; exact absurd hty (by decide)
    · rw [(mem_unusualSegment hc).1] at hty; exact absurd hty (by decide)
    · rw [(mem_newWalletSegment hc).1] at hty; exact absurd hty (by decide)
    · rw [(mem_smartMoneySegment hc).1] at hty; exact absurd hty (by decide)
    · rw [(mem_vipSegment hc).1] at hty; exact absurd hty (by decide)
    · rw [(mem_repeatSegment hc).1] at hty; exact absurd hty (by decide)
    · rw [(mem_heavySegment hc).1] at hty; exact absurd hty (by decide)
    · rcases mem_clusterSegment hc with ⟨_, h2000, ws, hws, _⟩
      have hanon : isAnonymousTrader t.trader_address = false := by
        by_cases ha : isAnonymousTrader t.trader_address
        · rw [ha] at hws; simp at hws
        · simpa using ha
      rw [hanon] at hws
      simp only [Bool.false_eq_true, if_false] at hws
      unfold detectClusterActivity at hws
      split_ifs at hws with d1 d2 d3
      rcases d3 with ⟨hrelated, _⟩
      have hpos := hamt_pos h2000
      obtain ⟨w, hwmem⟩ : ∃ w, w ∈ relatedWallets cfg (updatedRecentTrades cfg st t now) t := by
        rcases hl : relatedWallets cfg (updatedRecentTrades cfg st t now) t with _ | ⟨w, rest⟩
        · rw [hl] at hrelated; simp at hrelated
        · exact ⟨w, by simp [hl]⟩
      unfold relatedWallets at hwmem
      obtain ⟨e, he, hew⟩ := List.mem_map.mp hwmem
      rw [List.mem_filter] at he
      obtain ⟨hewin, hecond⟩ := he
      rw [if_pos hpos] at hecond
      simp only [Bool.and_eq_true, decide_eq_true_eq] at hecond
      unfold windowTrades at hewin
      rw [List.mem_filter] at hewin
      obtain ⟨herec, hewc⟩ := hewin
      simp only [Bool.and_eq_true, decide_eq_true_eq] at hewc
      refine ⟨hanon, h2000, by omega, e, herec, hewc.2, hewc.1, ?_, ?_⟩
      · have := hecond.1
        rw [le_div_iff₀ hpos] at this
        linarith
      · have := hecond.2
        rw [div_le_iff₀ hpos] at this
        linarith
    · rw [(mem_impactSegment hc).1] at hty; exact absurd hty (by decide)
    · rw [(mem_entitySegment hc).1] at hty; exact absurd hty (by decide)
  · rintro ⟨hanon, h2000, hlen, e, herec, hene, hewin, helo, hehi⟩
    have hpos := hamt_pos h2000
    have hewt : e ∈ windowTrades cfg (updatedRecentTrades cfg st t now) t := by
      unfold windowTrades
      rw [List.mem_filter]
      exact ⟨herec, by simp [hewin, hene]⟩
    have hrelmem : e.1 ∈ relatedWallets cfg (updatedRecentTrades cfg st t now) t := by
      unfold relatedWallets
      refine List.mem_map.mpr ⟨e, ?_, rfl⟩
      rw [List.mem_filter]
      refine ⟨hewt, ?_⟩
      rw [if_pos hpos]
      simp only [Bool.and_eq_true, decide_eq_true_eq]
      constructor
      · rw [le_div_iff₀ hpos]
        linarith
      · rw [div_le_iff₀ hpos]
        linarith
    have hdet : detectClusterActivity cfg (updatedRecentTrades cfg st t now) t
        = some (([t.trader_address]
            ++ relatedWallets cfg (updatedRecentTrades cfg st t now) t).dedup) := by
      unfold detectClusterActivity
      rw [if_neg (by omega), if_neg (by intro hemp; rw [hemp] at hewt; cases hewt),
        if_pos ⟨List.length_pos_of_mem hrelmem, le_trans (by norm_num) h2000⟩]
    refine List.mem_map.mpr ⟨("CLUSTER_ACTIVITY", "CLUSTER DETECTED", (9 : ℤ)), ?_, rfl⟩
    have hbase : ("CLUSTER_ACTIVITY", "CLUSTER DETECTED", (9 : ℤ))
        ∈ clusterSegment
            (if isAnonymousTrader t.trader_address then none
             else detectClusterActivity cfg (updatedRecentTrades cfg st t now) t)
            t.amount_usd := by
      rw [hanon]
      simp only [Bool.false_eq_true, if_false]
      rw [hdet, clusterSegment]
      have hlen2 : 2 ≤ (([t.trader_address]
          ++ relatedWallets cfg (updatedRecentTrades cfg st t now) t).dedup).length := by
        refine two_le_length_of_mem_ne (a := t.trader_address) (b := e.1) ?_ ?_ (Ne.symm hene)
        · exact List.mem_dedup.mpr (List.mem_append_left _ (List.mem_singleton.mpr rfl))
        · exact List.mem_dedup.mpr (List.mem_append_right _ hrelmem)
      rw [if_pos ⟨hlen2, h2000⟩]
      exact List.mem_singleton.mpr rfl
    exact List.mem_append_left _ (List.mem_append_left _ (List.mem_append_right _ hbase))

/-! ### Claim C6: the crypto category gate -/

/-- The WHALE_TRADE trigger is in the battery whenever the trade reaches the
whale threshold. -/
lemma whale_trigger_mem_battery (cfg : DetectorConfig) (st : DetectorState) (t : Trade)
    (q : Option String) (now : ℤ) (hw : cfg.whale_threshold_usd ≤ t.amount_usd) :
    ("WHALE_TRADE", "WHALE ALERT",
      calculateSeverityScore cfg st t (updateWalletProfile cfg st.wallet_profiles t q)
        "WHALE_TRADE" now) ∈ batteryTriggers cfg st t q now := by
  have hbase : ("WHALE_TRADE", "WHALE ALERT",
      calculateSeverityScore cfg st t (updateWalletProfile cfg st.wallet_profiles t q)
        "WHALE_TRADE" now)
      ∈ whaleSegment cfg st t (updateWalletProfile cfg st.wallet_profiles t q) now := by
    rw [whaleSegment, if_pos hw]
    exact List.mem_singleton.mpr rfl
  exact List.mem_append_left _ (List.mem_append_left _ (List.mem_append_left _
    (List.mem_append_left _ (List.mem_append_left _ (List.mem_append_left _
    (List.mem_append_left _ (List.mem_append_left _ (List.mem_append_left _ hbase))))))))

/-- C6: on a trade whose market category resolves to Crypto, once triggers
survive and the multi-signal gate passes, the consolidated alert is dropped
exactly when the amount is below crypto_min_threshold_usd and no surviving
type is crypto-exempt; in every other case the already-consolidated alert is
emitted unchanged.  (Stated for an arbitrary configuration; under the default
thresholds the suppression case is vacuous, as claim C1 shows.) -/
theorem c6_crypto_gate (cfg : DetectorConfig) (st : DetectorState) (t : Trade)
    (q : Option String) (now : ℤ)
    (hs : (cfg.exclude_sports && isSportsMarket q t.market_id) = false)
    (hf : isHighFrequencyMarket q t.market_id = false)
    (hne : survivingTriggers cfg st t q now ≠ [])
    (hms : multiSignalPass cfg ((survivingTriggers cfg st t q now).map (·.1)))
    (hcat : marketCategoryOf st t q = "Crypto") :
    (t.amount_usd < cfg.crypto_min_threshold_usd
        ∧ ¬(∃ ty ∈ (survivingTriggers cfg st t q now).map (·.1), ty ∈ cryptoExemptTypes) →
      analyzeTrade cfg st t q now = none)
    ∧ (¬(t.amount_usd < cfg.crypto_min_threshold_usd
          ∧ ¬(∃ ty ∈ (survivingTriggers cfg st t q now).map (·.1), ty ∈ cryptoExemptTypes)) →
      analyzeTrade cfg st t q now
        = some (consolidate cfg st t q now (survivingTriggers cfg st t q now))) := by
  constructor
  · rintro ⟨hlt, hnoex⟩
    unfold analyzeTrade
    rw [hs, hf]
    simp only [Bool.false_eq_true, if_false]
    rw [if_neg hne, if_neg (not_not_intro hms), if_pos ⟨hcat, hlt, hnoex⟩]
  · intro hnot
    unfold analyzeTrade
    rw [hs, hf]
    simp only [Bool.false_eq_true, if_false]
    rw [if_neg hne, if_neg (not_not_intro hms), if_neg ?_]
    intro hsup
    exact hnot ⟨hsup.2.1, hsup.2.2⟩

/-- Witness state and trade for C6: market mc is cached as Crypto and receives
a 25000 dollar whale trade, which carries the crypto-exempt WHALE_TRADE type
and is therefore emitted unchanged. -/
def wState6 : DetectorState :=
  { wState1 with market_categories := fun m => if m = "mc" then some "Crypto" else none }

def wTrade6 : Trade := { wTrade1 with market_id := "mc" }

/-- Witness for C6 at a concrete input. -/
theorem c6_crypto_gate_witness :
    marketCategoryOf wState6 wTrade6 none = "Crypto"
    ∧ analyzeTrade defaultConfig wState6 wTrade6 none 0
        = some (consolidate defaultConfig wState6 wTrade6 none 0
            (survivingTriggers defaultConfig wState6 wTrade6 none 0)) := by
  have hmem : ("WHALE_TRADE", "WHALE ALERT",
      calculateSeverityScore defaultConfig wState6 wTrade6
        (updateWalletProfile defaultConfig wState6.wallet_profiles wTrade6 none)
        "WHALE_TRADE" 0) ∈ survivingTriggers defaultConfig wState6 wTrade6 none 0 := by
    rw [mem_survivingTriggers]
    exact ⟨whale_trigger_mem_battery defaultConfig wState6 wTrade6 none 0
      (by norm_num [wTrade6, wTrade1, defaultConfig]), Or.inr (by decide)⟩
  refine ⟨rfl, (c6_crypto_gate defaultConfig wState6 wTrade6 none 0 (by decide) (by decide)
    (List.ne_nil_of_mem hmem)
    (Or.inl ⟨"WHALE_TRADE", List.mem_map.mpr ⟨_, hmem, rfl⟩, by decide⟩) rfl).2 ?_⟩
  rintro ⟨hlt, _⟩
  norm_num [wTrade6, wTrade1, defaultConfig] at hlt

/-! ### Claim C5: ingestion dedup and the seen-trades cap
(TradeMonitor._check_for_trades)

The shared seen_trades set is a Python set of trade ids: unordered, so it is
modelled as a Finset String.  The primary fetch filters the whole fetched
batch against the pre-batch set and only then marks the forwarded ids seen,
so a batch carrying the same new id twice forwards it twice; the secondary
(whale) fetch checks and inserts one trade at a time.  The cap rebuilds the
set from a slice of list(self.seen_trades), an enumeration of the set in
arbitrary order, taken here as a parameter. -/

/-- Primary fetch of _check_for_trades:
`new_trades = [t for t in trades if t.id not in self.seen_trades]` — the whole
batch is filtered against the pre-batch seen set, duplicates inside the batch
included. -/
def primaryFetchNew (trades : List String) (seen : Finset String) : List String :=
  trades.filter (fun i => decide (i ∉ seen))

/-- The seen set after the primary fetch marks its forwarded trades:
`for trade in new_trades: self.seen_trades.add(trade.id)`. -/
def primaryFetchSeen (trades : List String) (seen : Finset String) : Finset String :=
  (primaryFetchNew trades seen).foldl (fun t i => insert i t) seen

/-- Secondary (whale) fetch of _check_for_trades: each trade whose id is not
yet seen is forwarded (first component, in order) and its id inserted
immediately, so a duplicate inside the batch is forwarded once. -/
def secondaryFetch : List String → Finset String → List String × Finset String
  | [], seen => ([], seen)
  | i :: rest, seen =>
      if i ∈ seen then secondaryFetch rest seen
      else
        (i :: (secondaryFetch rest (insert i seen)).1,
         (secondaryFetch rest (insert i seen)).2)

/-- The seen-set cap of _check_for_trades: `if len(self.seen_trades) > 50_000:
self.seen_trades = set(list(self.seen_trades)[-25_000:])`, applied to an
enumeration of the set — truncation to the last 25000 entries of that
enumeration once the set exceeds 50000. -/
def pruneSeenTrades (enum : List String) : List String :=
  if 50000 < enum.length then enum.drop (enum.length - 25000) else enum

/-- C5 counterexample: a primary-fetch batch holding one new id twice is
forwarded — hence pipeline-evaluated — three times against two unique ids;
and the set is already truncated at 50001 entries, below the claimed 100k
cap, down to 25000 entries rather than 50000. -/
theorem c5_dedup_cap_counterexample :
    (primaryFetchNew ["a", "b", "a"] ∅).length = 3
    ∧ (["a", "b", "a"] : List String).toFinset.card = 2
    ∧ ((List.range 50001).map toString).length ≤ 100000
    ∧ pruneSeenTrades ((List.range 50001).map toString)
        ≠ (List.range 50001).map toString
    ∧ (pruneSeenTrades ((List.range 50001).map toString)).length = 25000 := by
  have hlen : ((List.range 50001).map toString).length = 50001 := by
    rw [List.length_map, List.length_range]
  have hprune : (pruneSeenTrades ((List.range 50001).map toString)).length = 25000 := by
    unfold pruneSeenTrades
    rw [if_pos (by rw [hlen]; norm_num)]
    rw [List.length_drop, hlen]
  refine ⟨by decide, by decide, by rw [hlen]; norm_num, ?_, hprune⟩
  intro heq
  have hcl := congrArg List.length heq
  rw [hprune, hlen] at hcl
  norm_num at hcl

/-- Folding set insertion over a list of ids adds exactly those ids. -/
lemma foldl_insert_eq_union (l : List String) :
    ∀ s : Finset String, l.foldl (fun t i => insert i t) s = s ∪ l.toFinset := by
  induction l with
  | nil => intro s; simp
  | cons i rest ih =>
      intro s
      rw [List.foldl_cons, ih (insert i s), List.toFinset_cons,
        Finset.insert_union, Finset.union_insert]

/-- Count of trades forwarded by the secondary fetch: the distinct incoming
ids not yet seen, duplicates inside the batch collapsed. -/
lemma secondaryFetch_count (obs : List String) (seen : Finset String) :
    (secondaryFetch obs seen).1.length = (obs.toFinset \ seen).card := by
  induction obs generalizing seen with
  | nil => simp [secondaryFetch]
  | cons i rest ih =>
      by_cases hi : i ∈ seen
      · rw [secondaryFetch, if_pos hi, ih]
        congr 1
        rw [List.toFinset_cons, Finset.insert_sdiff_of_mem _ hi]
      · rw [secondaryFetch, if_neg hi]
        dsimp only
        rw [List.length_cons, ih]
        rw [List.toFinset_cons, Finset.sdiff_insert,
          Finset.insert_sdiff_of_not_mem _ hi]
        by_cases hx : i ∈ rest.toFinset \ seen
        · rw [Finset.card_erase_add_one hx, Finset.insert_eq_self.mpr hx]
        · rw [Finset.erase_eq_of_not_mem hx, Finset.card_insert_of_not_mem hx]

/-- The seen set after the secondary fetch holds exactly the old ids and the
batch ids. -/
lemma secondaryFetch_seen (obs : List String) (seen : Finset String) :
    (secondaryFetch obs seen).2 = seen ∪ obs.toFinset := by
  induction obs generalizing seen with
  | nil => simp [secondaryFetch]
  | cons i rest ih =>
      by_cases hi : i ∈ seen
      · rw [secondaryFetch, if_pos hi, ih, List.toFinset_cons, Finset.union_insert,
          Finset.insert_eq_self.mpr (Finset.mem_union_left _ hi)]
      · rw [secondaryFetch, if_neg hi]
        dsimp only
        rw [ih (insert i seen), List.toFinset_cons, Finset.insert_union,
          Finset.union_insert]

/-- C5 amended: the dedup set is capped at 50000 entries, rebuilt when
exceeded from a 25000-entry slice of its arbitrary enumeration order — a
subset of the previous set, not necessarily its most recent entries (the
claim's 100k/50k numbers are wrong).  The primary fetch forwards every
fetched trade whose id is not in the pre-batch seen set, so a batch of
pairwise-distinct ids is evaluated once per not-yet-seen id, but a batch
repeating a new id is evaluated once per occurrence; the secondary fetch
checks and inserts per trade, evaluating exactly the distinct not-yet-seen
ids of its batch. -/
theorem c5_dedup_amended (trades : List String) (seen : Finset String)
    (enum : List String) :
    (∀ i ∈ primaryFetchNew trades seen, i ∉ seen)
    ∧ (trades.Nodup →
        (primaryFetchNew trades seen).length = (trades.toFinset \ seen).card)
    ∧ primaryFetchSeen trades seen = seen ∪ trades.toFinset
    ∧ (secondaryFetch trades seen).1.length = (trades.toFinset \ seen).card
    ∧ (secondaryFetch trades seen).2 = seen ∪ trades.toFinset
    ∧ (50000 < enum.length →
        (pruneSeenTrades enum).length = 25000
        ∧ (pruneSeenTrades enum).toFinset ⊆ enum.toFinset)
    ∧ (enum.length ≤ 50000 → pruneSeenTrades enum = enum) := by
  refine ⟨?_, ?_, ?_, secondaryFetch_count trades seen, secondaryFetch_seen trades seen,
    ?_, ?_⟩
  · intro i hi
    unfold primaryFetchNew at hi
    exact of_decide_eq_true (List.mem_filter.mp hi).2
  · intro hN
    have hnd : (primaryFetchNew trades seen).Nodup := hN.filter _
    have hf : (primaryFetchNew trades seen).toFinset = trades.toFinset \ seen := by
      ext x
      simp [primaryFetchNew, List.mem_filter]
    rw [← List.toFinset_card_of_nodup hnd, hf]
  · unfold primaryFetchSeen
    rw [foldl_insert_eq_union]
    ext x
    simp only [Finset.mem_union, List.mem_toFinset, primaryFetchNew, List.mem_filter,
      decide_eq_true_eq, Finset.mem_coe]
    tauto
  · intro hlong
    unfold pruneSeenTrades
    rw [if_pos hlong]
    refine ⟨?_, ?_⟩
    · rw [List.length_drop]
      omega
    · intro x hx
      exact List.mem_toFinset.mpr
        (List.drop_subset _ _ (List.mem_toFinset.mp hx))
  · intro hshort
    unfold pruneSeenTrades
    rw [if_neg (by omega)]

/-- Witness for C5 amended: a duplicate-free primary batch of two new ids is
evaluated twice, a secondary batch repeating an id is evaluated twice, and a
50001-entry enumeration is pruned to 25000. -/
theorem c5_dedup_amended_witness :
    (primaryFetchNew ["a", "b"] ∅).length
        = ((["a", "b"] : List String).toFinset \ (∅ : Finset String)).card
    ∧ (secondaryFetch ["a", "b", "a"] ∅).1.length
        = ((["a", "b", "a"] : List String).toFinset \ (∅ : Finset String)).card
    ∧ (pruneSeenTrades ((List.range 50001).map toString)).length = 25000
    ∧ pruneSeenTrades ["x"] = ["x"] := by
  refine ⟨(c5_dedup_amended ["a", "b"] ∅ []).2.1 (by decide),
    (c5_dedup_amended ["a", "b", "a"] ∅ []).2.2.2.1, ?_, ?_⟩
  · exact ((c5_dedup_amended [] ∅ ((List.range 50001).map toString)).2.2.2.2.2.1
      (by rw [List.length_map, List.length_range]; norm_num)).1
  · exact (c5_dedup_amended [] ∅ ["x"]).2.2.2.2.2.2 (by decide)

/-! ### Claim C8: entity-engine edge decay (entity_engine.py)

Edge weights are Python floats combined through `0.5 ** (dt / halflife)`, an
irrational value, so this part of the embedding lives in `ℝ` and is
noncomputable; everything is still exact (no floating-point rounding), which
is the reading the spec's "within fp tolerance" allows. -/

noncomputable section

/-- The EntityEngine constructor arguments the edge update reads
(edge_halflife_seconds is an int in the source). -/
structure EngineConfig where
  edge_halflife_seconds : ℤ
  edge_saturation_k : ℝ

/-- EntityEngine defaults: halflife one day, saturation factor 0.55. -/
def defaultEngineConfig : EngineConfig :=
  { edge_halflife_seconds := 86400, edge_saturation_k := 0.55 }

/-- WalletEdge: evidence and sample counts per signal (dicts as association
lists with unique keys), total weight, last update time. -/
structure WalletEdge where
  wallet_a : String
  wallet_b : String
  weight : ℝ
  evidence : List (String × ℝ)
  evidence_counts : List (String × ℕ)
  last_updated : ℤ

/-- The edge _get_or_create_edge builds for a previously unlinked pair. -/
def freshEdge (a b : String) (t : ℤ) : WalletEdge :=
  { wallet_a := a, wallet_b := b, weight := 0, evidence := [],
    evidence_counts := [], last_updated := t }

/-- _decay_factor: 0.5 ** (dt_seconds / halflife), and 1.0 when the halflife
or the elapsed time is nonpositive. -/
def decayFactor (halflife : ℤ) (dt : ℚ) : ℝ :=
  if halflife ≤ 0 ∨ dt ≤ 0 then 1
  else ((1 : ℝ) / 2) ^ ((dt : ℝ) / (halflife : ℝ))

/-- evidence.get(signal, 0.0). -/
def lookupWeight (ev : List (String × ℝ)) (sig : String) : ℝ :=
  ((ev.find? (fun p => p.1 = sig)).map (·.2)).getD 0

/-- evidence_counts.get(signal, 0). -/
def lookupCount (cnt : List (String × ℕ)) (sig : String) : ℕ :=
  ((cnt.find? (fun p => p.1 = sig)).map (·.2)).getD 0

/-- dict[signal] = v over an association list. -/
def setWeight (ev : List (String × ℝ)) (sig : String) (v : ℝ) : List (String × ℝ) :=
  if ev.any (fun p => p.1 = sig) then
    ev.map (fun p => if p.1 = sig then (sig, v) else p)
  else ev ++ [(sig, v)]

def setCount (cnt : List (String × ℕ)) (sig : String) (v : ℕ) : List (String × ℕ) :=
  if cnt.any (fun p => p.1 = sig) then
    cnt.map (fun p => if p.1 = sig then (sig, v) else p)
  else cnt ++ [(sig, v)]

/-- In-place decay of every per-signal evidence weight. -/
def decayEvidence (d : ℝ) (ev : List (String × ℝ)) : List (String × ℝ) :=
  ev.map (fun p => (p.1, p.2 * d))

/-- sum(edge.evidence.values()). -/
def evidenceSum (ev : List (String × ℝ)) : ℝ := (ev.map (·.2)).sum

/-- _add_edge_signal, acting on one edge: decay the stored evidence by the
elapsed time, add the new sample under saturation (1/(1+k·prev_count)) and
the per-signal cap, recompute the total weight as the evidence sum, and stamp
the update time.  (The wallet_a == wallet_b early return and the edge-map
lookup happen before this arithmetic in the source.) -/
def addEdgeSignal (cfg : EngineConfig) (edge : WalletEdge) (signal : String)
    (baseWeight cap : ℝ) (timestamp : ℤ) : WalletEdge :=
  let decay := decayFactor cfg.edge_halflife_seconds ((timestamp - edge.last_updated : ℤ) : ℚ)
  let decayed := decayEvidence decay edge.evidence
  let prevCount := lookupCount edge.evidence_counts signal
  let saturation := (1 : ℝ) / (1 + cfg.edge_saturation_k * (prevCount : ℝ))
  let prevWeight := lookupWeight decayed signal
  let remaining := max 0 (cap - prevWeight)
  let addWeight := min (baseWeight * saturation) remaining
  let newEv := setWeight decayed signal (prevWeight + addWeight)
  { edge with
    evidence := newEv
    evidence_counts := setCount edge.evidence_counts signal (prevCount + 1)
    weight := evidenceSum newEv
    last_updated := timestamp }

/-- The decayed total weight rebuild_entities reads for an edge:
edge.weight * decay(now - last_updated). -/
def rebuildDecayedWeight (halflife : ℤ) (edge : WalletEdge) (now : ℤ) : ℝ :=
  edge.weight * decayFactor halflife ((now - edge.last_updated : ℤ) : ℚ)

end

/-- The decay factor over exactly one halflife is one half. -/
lemma decayFactor_halflife {hl : ℤ} (hpos : 0 < hl) :
    decayFactor hl ((hl : ℤ) : ℚ) = 1 / 2 := by
  unfold decayFactor
  rw [if_neg]
  · have hne : ((hl : ℤ) : ℝ) ≠ 0 := by
      exact_mod_cast ne_of_gt hpos
    rw [show (((hl : ℤ) : ℚ) : ℝ) = ((hl : ℤ) : ℝ) by push_cast; ring]
    rw [div_self hne, Real.rpow_one]
  · push_neg
    constructor
    · omega
    · exact_mod_cast hpos

/-- C8: every edge update decays each stored per-signal evidence weight by
0.5^(dt/halflife) before incorporating the new sample and recomputes the edge
total as the sum of the evidence; and an edge holding exactly one
shared_funder sample (base 0.90, recorded at t0) reports through the decayed
rebuild read at t0 + halflife exactly half its initial 0.90 weight. -/
theorem c8_edge_decay_law (cfg : EngineConfig) (edge : WalletEdge) (signal : String)
    (baseWeight cap : ℝ) (ts : ℤ) :
    ((addEdgeSignal cfg edge signal baseWeight cap ts).weight
      = evidenceSum (addEdgeSignal cfg edge signal baseWeight cap ts).evidence)
    ∧ (∀ p ∈ edge.evidence, p.1 ≠ signal →
        (p.1, p.2 * decayFactor cfg.edge_halflife_seconds
            ((ts - edge.last_updated : ℤ) : ℚ))
          ∈ (addEdgeSignal cfg edge signal baseWeight cap ts).evidence)
    ∧ (∀ (a b : String) (t0 : ℤ) (hl : ℤ), 0 < hl →
        (addEdgeSignal { defaultEngineConfig with edge_halflife_seconds := hl }
            (freshEdge a b t0) "shared_funder" 0.9 1.5 t0).weight = 0.9
        ∧ rebuildDecayedWeight hl
            (addEdgeSignal { defaultEngineConfig with edge_halflife_seconds := hl }
              (freshEdge a b t0) "shared_funder" 0.9 1.5 t0) (t0 + hl)
          = (1 / 2)
            * (addEdgeSignal { defaultEngineConfig with edge_halflife_seconds := hl }
                (freshEdge a b t0) "shared_funder" 0.9 1.5 t0).weight) := by
  refine ⟨rfl, ?_, ?_⟩
  · intro p hp hne
    unfold addEdgeSignal setWeight
    simp only
    set d := decayFactor cfg.edge_halflife_seconds ((ts - edge.last_updated : ℤ) : ℚ) with hd
    by_cases hany : (decayEvidence d edge.evidence).any (fun p => p.1 = signal)
    · rw [if_pos hany]
      refine List.mem_map.mpr ⟨(p.1, p.2 * d), ?_, ?_⟩
      · exact List.mem_map.mpr ⟨p, hp, rfl⟩
      · simp [hne]
    · rw [if_neg hany]
      exact List.mem_append_left _ (List.mem_map.mpr ⟨p, hp, rfl⟩)
  · intro a b t0 hl hpos
    have hw : (addEdgeSignal { defaultEngineConfig with edge_halflife_seconds := hl }
        (freshEdge a b t0) "shared_funder" 0.9 1.5 t0).weight = 0.9 := by
      unfold addEdgeSignal freshEdge
      simp [decayEvidence, lookupCount, lookupWeight, setWeight, evidenceSum,
        defaultEngineConfig]
      norm_num [min_def, max_def]
    refine ⟨hw, ?_⟩
    unfold rebuildDecayedWeight
    have hlu : (addEdgeSignal { defaultEngineConfig with edge_halflife_seconds := hl }
        (freshEdge a b t0) "shared_funder" 0.9 1.5 t0).last_updated = t0 := rfl
    rw [hlu]
    rw [show (t0 + hl - t0 : ℤ) = hl by ring]
    rw [decayFactor_halflife hpos]
    ring

/-- Witness for C8: the decay law at the default halflife 86400 and t0 = 0. -/
theorem c8_edge_decay_law_witness :
    (0 : ℤ) < 86400
    ∧ rebuildDecayedWeight 86400
        (addEdgeSignal { defaultEngineConfig with edge_halflife_seconds := 86400 }
          (freshEdge "0xa" "0xb" 0) "shared_funder" 0.9 1.5 0) 86400
      = (1 / 2)
        * (addEdgeSignal { defaultEngineConfig with edge_halflife_seconds := 86400 }
            (freshEdge "0xa" "0xb" 0) "shared_funder" 0.9 1.5 0).weight :=
  ⟨by decide,
   by
    have h := (c8_edge_decay_law defaultEngineConfig (freshEdge "0xa" "0xb" 0) "s" 0 0 0).2.2
      "0xa" "0xb" 0 86400 (by decide)
    simpa using h.2⟩

/-! ### Claim C9: stable entity ids across rebuilds (entity_engine.py)

rebuild_entities collects the edges whose decayed weight reaches the entity
threshold, runs Union-Find over them, and then assigns ids to the resulting
connected components.  The id-assignment logic, which claim C9 is about, is
embedded below as a function of the component list (pairwise disjoint,
duplicate-free lists of at least 2 wallets, exactly what Union-Find
components are); the thresholded-edge collection reuses rebuildDecayedWeight
above. -/

/-- An Entity as rebuild_entities materializes it (the aggregate-stat fields
are never touched by a rebuild and are omitted). -/
structure EEntity where
  entity_id : String
  wallets : List String
  confidence : ℚ
  created_at : ℤ
  updated_at : ℤ

/-- The engine state a rebuild reads and replaces: the entity map, the
wallet→entity map, and the sequential id counter. -/
structure EngineEntState where
  entities : String → Option EEntity
  wallet_to_entity : String → Option String
  entity_seq : ℕ

/-- The zero-padded six-digit rendering of f"ent_{seq:06d}". -/
def padSix (n : ℕ) : String :=
  let s := toString n
  if s.length < 6 then String.mk (List.replicate (6 - s.length) '0') ++ s else s

/-- _next_entity_id (after the counter has been incremented to seq). -/
def nextEntityId (seq : ℕ) : String := "ent_" ++ padSix seq

/-- Increment eid's count in the entity_counts association list. -/
def bumpCount (acc : List (String × ℕ)) (eid : String) : List (String × ℕ) :=
  if acc.any (fun p => p.1 = eid) then
    acc.map (fun p => if p.1 = eid then (eid, p.2 + 1) else p)
  else acc ++ [(eid, 1)]

/-- One wallet's contribution to entity_counts: bump the count of its prior
entity, if it has one. -/
def countsStep (oldMap : String → Option String) (acc : List (String × ℕ))
    (w : String) : List (String × ℕ) :=
  match oldMap w with
  | some eid => bumpCount acc eid
  | none => acc

/-- entity_counts: how many wallets of the component the prior wallet→entity
map assigns to each prior entity. -/
def countsFor (oldMap : String → Option String) (wallets : List String) :
    List (String × ℕ) :=
  wallets.foldl (countsStep oldMap) []

/-- sorted(entity_counts.items(), key=lambda kv: (-kv[1], kv[0]))[0][0]: the
prior entity sharing the most wallets, ties broken by the alphabetically
smaller id; none when no wallet is shared. -/
def bestEntity : List (String × ℕ) → Option String
  | [] => none
  | p :: rest =>
      some ((rest.foldl
        (fun b q => if b.2 < q.2 ∨ (q.2 = b.2 ∧ q.1 < b.1) then q else b) p).1)

/-- The id a component receives, together with the updated sequence counter:
the best prior entity when one shares a wallet, otherwise a freshly minted
sequential id. -/
def chosenId (oldMap : String → Option String) (comp : List String) (seq : ℕ) :
    String × ℕ :=
  match bestEntity (countsFor oldMap comp) with
  | some e => (e, seq)
  | none => (nextEntityId (seq + 1), seq + 1)

/-- The Entity record rebuild_entities creates for a component under a given
id: confidence min(0.50 + 0.10·(n−2), 0.95), created_at preserved from the
prior entity of the same id. -/
def mkEntity (oldEnts : String → Option EEntity) (now : ℤ) (comp : List String)
    (eid : String) : EEntity :=
  { entity_id := eid
    wallets := comp
    confidence := min (0.5 + 0.1 * ((comp.length : ℚ) - 2)) 0.95
    created_at :=
      match oldEnts eid with
      | some o => o.created_at
      | none => now
    updated_at := now }

/-- Processing of one component inside rebuild_entities: components of fewer
than 2 wallets are skipped; otherwise the chosen id's entity is written and
every wallet of the component is pointed at it. -/
def rebuildStep (oldMap : String → Option String) (oldEnts : String → Option EEntity)
    (now : ℤ)
    (acc : (String → Option EEntity) × (String → Option String) × ℕ)
    (comp : List String) :
    (String → Option EEntity) × (String → Option String) × ℕ :=
  if comp.length < 2 then acc
  else
    (fun e => if e = (chosenId oldMap comp acc.2.2).1
       then some (mkEntity oldEnts now comp (chosenId oldMap comp acc.2.2).1)
       else acc.1 e,
     fun w => if w ∈ comp then some (chosenId oldMap comp acc.2.2).1 else acc.2.1 w,
     (chosenId oldMap comp acc.2.2).2)

/-- rebuild_entities over the materialized components: the entity map and the
wallet→entity map are rebuilt from scratch (the source clears them before the
loop), keeping the old maps only as the snapshot that id assignment and
created_at preservation read. -/
def rebuildFromComponents (comps : List (List String)) (st : EngineEntState)
    (now : ℤ) : EngineEntState :=
  let r := comps.foldl (rebuildStep st.wallet_to_entity st.entities now)
    (fun _ => none, fun _ => none, st.entity_seq)
  { entities := r.1, wallet_to_entity := r.2.1, entity_seq := r.2.2 }

lemma chosenId_of_best_some {m : String → Option String} {comp : List String}
    {seq : ℕ} {e : String} (h : bestEntity (countsFor m comp) = some e) :
    chosenId m comp seq = (e, seq) := by
  unfold chosenId
  rw [h]

lemma chosenId_of_best_none {m : String → Option String} {comp : List String}
    {seq : ℕ} (h : bestEntity (countsFor m comp) = none) :
    chosenId m comp seq = (nextEntityId (seq + 1), seq + 1) := by
  unfold chosenId
  rw [h]

/-- Wallets belonging to none of the remaining components keep their mapping
through the rest of the rebuild fold. -/
lemma fold_map_untouched (oldMap : String → Option String)
    (oldEnts : String → Option EEntity) (now : ℤ) :
    ∀ (comps : List (List String))
      (acc : (String → Option EEntity) × (String → Option String) × ℕ) (w : String),
      (∀ c ∈ comps, w ∉ c) →
      (comps.foldl (rebuildStep oldMap oldEnts now) acc).2.1 w = acc.2.1 w := by
  intro comps
  induction comps with
  | nil => intro acc w _; rfl
  | cons c tl ih =>
      intro acc w hw
      rw [List.foldl_cons, ih _ w (fun d hd => hw d (List.mem_cons_of_mem _ hd))]
      by_cases hlen : c.length < 2
      · rw [rebuildStep, if_pos hlen]
      · rw [rebuildStep, if_neg hlen]
        dsimp only
        rw [if_neg (hw c (List.mem_cons_self ..))]

/-- An entity id that is present stays present through the rebuild fold. -/
lemma fold_ents_isSome_mono (oldMap : String → Option String)
    (oldEnts : String → Option EEntity) (now : ℤ) :
    ∀ (comps : List (List String))
      (acc : (String → Option EEntity) × (String → Option String) × ℕ) (eid : String),
      (acc.1 eid).isSome = true →
      ((comps.foldl (rebuildStep oldMap oldEnts now) acc).1 eid).isSome = true := by
  intro comps
  induction comps with
  | nil => intro acc eid h; exact h
  | cons c tl ih =>
      intro acc eid h
      rw [List.foldl_cons]
      apply ih
      by_cases hlen : c.length < 2
      · rw [rebuildStep, if_pos hlen]; exact h
      · rw [rebuildStep, if_neg hlen]
        dsimp only
        by_cases heq : eid = (chosenId oldMap c acc.2.2).1
        · rw [if_pos heq]; rfl
        · rw [if_neg heq]; exact h

lemma countsStep_some {m : String → Option String} {w : String} {e : String}
    (acc : List (String × ℕ)) (h : m w = some e) :
    countsStep m acc w = bumpCount acc e := by
  unfold countsStep
  rw [h]

lemma countsStep_none {m : String → Option String} {w : String}
    (acc : List (String × ℕ)) (h : m w = none) :
    countsStep m acc w = acc := by
  unfold countsStep
  rw [h]

/-- countsFor folding over wallets all mapped to the same prior id. -/
lemma countsFor_go_const (m : String → Option String) (e : String) :
    ∀ (rest : List String) (k : ℕ), (∀ w ∈ rest, m w = some e) →
      rest.foldl (countsStep m) [(e, k)] = [(e, k + rest.length)] := by
  intro rest
  induction rest with
  | nil => intro k _; simp
  | cons w tl ih =>
      intro k hall
      rw [List.foldl_cons,
        countsStep_some _ (hall w (List.mem_cons_self ..))]
      have hb : bumpCount [(e, k)] e = [(e, k + 1)] := by simp [bumpCount]
      rw [hb, ih (k + 1) (fun x hx => hall x (List.mem_cons_of_mem _ hx))]
      simp only [List.length_cons, List.cons.injEq, Prod.mk.injEq, true_and, and_true]
      omega

/-- entity_counts of a component whose wallets all map to the same prior id. -/
lemma countsFor_const (m : String → Option String) (e : String) (comp : List String)
    (hne : comp ≠ []) (hall : ∀ w ∈ comp, m w = some e) :
    countsFor m comp = [(e, comp.length)] := by
  cases comp with
  | nil => exact absurd rfl hne
  | cons w tl =>
      unfold countsFor
      rw [List.foldl_cons,
        countsStep_some _ (hall w (List.mem_cons_self ..))]
      have hb : bumpCount [] e = [(e, 1)] := by simp [bumpCount]
      rw [hb, countsFor_go_const m e tl 1 (fun x hx => hall x (List.mem_cons_of_mem _ hx))]
      simp only [List.length_cons, List.cons.injEq, Prod.mk.injEq, true_and, and_true]
      omega

/-- entity_counts is empty when no wallet of the component is mapped. -/
lemma countsFor_none (m : String → Option String) :
    ∀ (comp : List String), (∀ w ∈ comp, m w = none) → countsFor m comp = [] := by
  intro comp
  induction comp with
  | nil => intro _; rfl
  | cons w tl ih =>
      intro hall
      unfold countsFor
      rw [List.foldl_cons, countsStep_none _ (hall w (List.mem_cons_self ..))]
      exact ih (fun x hx => hall x (List.mem_cons_of_mem _ hx))

/-- countsFor folding when every mapped wallet points at e: the accumulator
stays a (possibly empty) single-entry list for e, and is nonempty as soon as
it started nonempty or some wallet of the component is mapped. -/
lemma countsFor_go_subsingle (m : String → Option String) (e : String) :
    ∀ (comp : List String) (acc : List (String × ℕ)),
      (∀ w ∈ comp, ∀ e', m w = some e' → e' = e) →
      (acc = [] ∨ ∃ j, acc = [(e, j)]) →
      ((comp.foldl (countsStep m) acc = []
          ∨ ∃ j, comp.foldl (countsStep m) acc = [(e, j)])
       ∧ ((acc ≠ [] ∨ ∃ w ∈ comp, (m w).isSome = true) →
          comp.foldl (countsStep m) acc ≠ [])) := by
  intro comp
  induction comp with
  | nil =>
      intro acc huniq hinv
      refine ⟨hinv, ?_⟩
      rintro (hne | ⟨w, hw, _⟩)
      · exact hne
      · cases hw
  | cons w tl ih =>
      intro acc huniq hinv
      rw [List.foldl_cons]
      rcases hm : m w with _ | e'
      · rw [countsStep_none _ hm]
        obtain ⟨hform, hne⟩ :=
          ih acc (fun x hx => huniq x (List.mem_cons_of_mem _ hx)) hinv
        refine ⟨hform, ?_⟩
        rintro (hacc | ⟨x, hx, hmx⟩)
        · exact hne (Or.inl hacc)
        · rcases List.mem_cons.mp hx with rfl | hx'
          · rw [hm] at hmx
            exact absurd hmx (by simp)
          · exact hne (Or.inr ⟨x, hx', hmx⟩)
      · have he' : e' = e := huniq w (List.mem_cons_self ..) e' hm
        subst he'
        rw [countsStep_some _ hm]
        have hinv' : bumpCount acc e' = [] ∨ ∃ j, bumpCount acc e' = [(e', j)] := by
          rcases hinv with rfl | ⟨j, rfl⟩
          · exact Or.inr ⟨1, by simp [bumpCount]⟩
          · exact Or.inr ⟨j + 1, by simp [bumpCount]⟩
        have hbne : bumpCount acc e' ≠ [] := by
          rcases hinv with rfl | ⟨j, rfl⟩ <;> simp [bumpCount]
        obtain ⟨hform, hne⟩ :=
          ih (bumpCount acc e') (fun x hx => huniq x (List.mem_cons_of_mem _ hx)) hinv'
        exact ⟨hform, fun _ => hne (Or.inl hbne)⟩

/-- When the component shares wallets with exactly one prior entity, that
entity is the best (and only) candidate. -/
lemma bestEntity_countsFor_unique (m : String → Option String) (comp : List String)
    (e : String) (hex : ∃ w ∈ comp, m w = some e)
    (huniq : ∀ w ∈ comp, ∀ e', m w = some e' → e' = e) :
    bestEntity (countsFor m comp) = some e := by
  obtain ⟨hform, hne⟩ := countsFor_go_subsingle m e comp [] huniq (Or.inl rfl)
  have hne' := hne (Or.inr (by
    obtain ⟨w, hw, hmw⟩ := hex
    exact ⟨w, hw, by rw [hmw]; rfl⟩))
  rcases hform with h0 | ⟨j, hj⟩
  · exact absurd h0 hne'
  · unfold countsFor
    rw [hj]
    rfl

/-- The fold that picks sorted(...)[0] returns a member with maximal count,
alphabetically least among the maximal ones. -/
lemma foldl_best_spec :
    ∀ (rest : List (String × ℕ)) (p : String × ℕ),
      (rest.foldl
        (fun b q => if b.2 < q.2 ∨ (q.2 = b.2 ∧ q.1 < b.1) then q else b) p) ∈ p :: rest
      ∧ (∀ q ∈ p :: rest, q.2 ≤
          (rest.foldl
            (fun b q => if b.2 < q.2 ∨ (q.2 = b.2 ∧ q.1 < b.1) then q else b) p).2)
      ∧ (∀ q ∈ p :: rest, q.2 =
          (rest.foldl
            (fun b q => if b.2 < q.2 ∨ (q.2 = b.2 ∧ q.1 < b.1) then q else b) p).2 →
          (rest.foldl
            (fun b q => if b.2 < q.2 ∨ (q.2 = b.2 ∧ q.1 < b.1) then q else b) p).1 ≤ q.1) := by
  intro rest
  induction rest with
  | nil =>
      intro p
      refine ⟨List.mem_singleton.mpr rfl, ?_, ?_⟩
      · intro q hq
        rw [List.mem_singleton] at hq
        rw [hq]
        exact le_rfl
      · intro q hq _
        rw [List.mem_singleton] at hq
        rw [hq]
        exact le_rfl
  | cons q tl ih =>
      intro p
      rw [List.foldl_cons]
      by_cases hcond : p.2 < q.2 ∨ (q.2 = p.2 ∧ q.1 < p.1)
      · rw [if_pos hcond]
        obtain ⟨hmem, hmax, hmin⟩ := ih q
        have hqb : q.2 ≤ (tl.foldl
            (fun b q => if b.2 < q.2 ∨ (q.2 = b.2 ∧ q.1 < b.1) then q else b) q).2 :=
          hmax q (List.mem_cons_self ..)
        refine ⟨?_, ?_, ?_⟩
        · rcases List.mem_cons.mp hmem with hb | hb
          · rw [hb]
            exact List.mem_cons_of_mem _ (List.mem_cons_self ..)
          · exact List.mem_cons_of_mem _ (List.mem_cons_of_mem _ hb)
        · intro r hr
          rcases List.mem_cons.mp hr with rfl | hr'
          · have hpq : r.2 ≤ q.2 := by
              rcases hcond with h | h
              · exact le_of_lt h
              · omega
            exact le_trans hpq hqb
          · exact hmax r hr'
        · intro r hr hreq
          rcases List.mem_cons.mp hr with rfl | hr'
          · rcases hcond with h | h
            · exact absurd hreq (by omega)
            · have hqeq : q.2 = (tl.foldl
                  (fun b q => if b.2 < q.2 ∨ (q.2 = b.2 ∧ q.1 < b.1) then q else b) q).2 := by
                omega
              exact le_of_lt (lt_of_le_of_lt (hmin q (List.mem_cons_self ..) hqeq) h.2)
          · exact hmin r hr' hreq
      · rw [if_neg hcond]
        obtain ⟨hmem, hmax, hmin⟩ := ih p
        push_neg at hcond
        have hpb : p.2 ≤ (tl.foldl
            (fun b q => if b.2 < q.2 ∨ (q.2 = b.2 ∧ q.1 < b.1) then q else b) p).2 :=
          hmax p (List.mem_cons_self ..)
        refine ⟨?_, ?_, ?_⟩
        · rcases List.mem_cons.mp hmem with hb | hb
          · rw [hb]
            exact List.mem_cons_self ..
          · exact List.mem_cons_of_mem _ (List.mem_cons_of_mem _ hb)
        · intro r hr
          rcases List.mem_cons.mp hr with rfl | hr'
          · exact hpb
          · rcases List.mem_cons.mp hr' with rfl | hr''
            · exact le_trans hcond.1 hpb
            · exact hmax r (List.mem_cons_of_mem _ hr'')
        · intro r hr hreq
          rcases List.mem_cons.mp hr with rfl | hr'
          · exact hmin r (List.mem_cons_self ..) hreq
          · rcases List.mem_cons.mp hr' with rfl | hr''
            · have hq2p2 : r.2 = p.2 := by omega
              have hbp : (tl.foldl
                  (fun b q => if b.2 < q.2 ∨ (q.2 = b.2 ∧ q.1 < b.1) then q else b) p).1 ≤ p.1 :=
                hmin p (List.mem_cons_self ..) (by omega)
              exact le_trans hbp (hcond.2 hq2p2)
            · exact hmin r (List.mem_cons_of_mem _ hr'') hreq

/-- An entity slot holding a rebuilt record keeps holding a rebuilt record
(possibly overwritten by a later component choosing the same id) through the
rest of the fold. -/
lemma fold_ents_mk (m : String → Option String) (ents : String → Option EEntity)
    (now : ℤ) :
    ∀ (comps : List (List String))
      (acc : (String → Option EEntity) × (String → Option String) × ℕ)
      (eid : String) (comp0 : List String),
      acc.1 eid = some (mkEntity ents now comp0 eid) →
      ∃ comp2, (comps.foldl (rebuildStep m ents now) acc).1 eid
        = some (mkEntity ents now comp2 eid) := by
  intro comps
  induction comps with
  | nil => intro acc eid comp0 h; exact ⟨comp0, h⟩
  | cons c tl ih =>
      intro acc eid comp0 h
      rw [List.foldl_cons]
      by_cases hlen : c.length < 2
      · exact ih _ eid comp0 (by rw [rebuildStep, if_pos hlen]; exact h)
      · by_cases heq : eid = (chosenId m c acc.2.2).1
        · refine ih _ eid c ?_
          rw [rebuildStep, if_neg hlen]
          dsimp only
          rw [if_pos heq, ← heq]
        · exact ih _ eid comp0
            (by rw [rebuildStep, if_neg hlen]; dsimp only; rw [if_neg heq]; exact h)

/-- Under pairwise-disjoint components, every processed component receives one
id: the best prior entity when one is shared, a freshly minted sequential id
otherwise; all its wallets are remapped to it and its entity record is a
rebuilt record under that id. -/
lemma fold_assigns (m : String → Option String) (ents : String → Option EEntity)
    (now : ℤ) :
    ∀ (comps : List (List String))
      (acc : (String → Option EEntity) × (String → Option String) × ℕ),
      comps.Pairwise (fun a b => ∀ w ∈ a, w ∉ b) →
      ∀ c ∈ comps, ¬ c.length < 2 →
      ∃ eid,
        (∀ e, bestEntity (countsFor m c) = some e → eid = e)
        ∧ (bestEntity (countsFor m c) = none → ∃ n, eid = nextEntityId n)
        ∧ (∀ w ∈ c, (comps.foldl (rebuildStep m ents now) acc).2.1 w = some eid)
        ∧ ∃ comp2, (comps.foldl (rebuildStep m ents now) acc).1 eid
            = some (mkEntity ents now comp2 eid) := by
  intro comps
  induction comps with
  | nil => intro acc _ c hc; cases hc
  | cons c0 tl ih =>
      intro acc hp c hc hlen
      rw [List.foldl_cons]
      rcases List.mem_cons.mp hc with rfl | hcl
      · refine ⟨(chosenId m c acc.2.2).1, ?_, ?_, ?_, ?_⟩
        · intro e he
          rw [chosenId_of_best_some he]
        · intro he
          rw [chosenId_of_best_none he]
          exact ⟨acc.2.2 + 1, rfl⟩
        · intro w hw
          have hnottl : ∀ d ∈ tl, w ∉ d := by
            intro d hd
            exact (List.pairwise_cons.mp hp).1 d hd w hw
          rw [fold_map_untouched m ents now tl _ w hnottl]
          rw [rebuildStep, if_neg hlen]
          dsimp only
          rw [if_pos hw]
        · refine fold_ents_mk m ents now tl _ _ c ?_
          rw [rebuildStep, if_neg hlen]
          dsimp only
          rw [if_pos rfl]
      · exact ih _ (List.pairwise_cons.mp hp).2 c hcl hlen

/-- What bestEntity returns: an entry of entity_counts with the maximal count,
alphabetically least among the entries of that count. -/
lemma bestEntity_spec (counts : List (String × ℕ)) (e : String)
    (h : bestEntity counts = some e) :
    ∃ n, (e, n) ∈ counts ∧ (∀ q ∈ counts, q.2 ≤ n)
      ∧ (∀ q ∈ counts, q.2 = n → e ≤ q.1) := by
  cases counts with
  | nil => exact absurd h (by simp [bestEntity])
  | cons p rest =>
      obtain ⟨hmem, hmax, hmin⟩ := foldl_best_spec rest p
      simp only [bestEntity, Option.some.injEq] at h
      refine ⟨(rest.foldl
          (fun b q => if b.2 < q.2 ∨ (q.2 = b.2 ∧ q.1 < b.1) then q else b) p).2,
          ?_, ?_, ?_⟩
      · rw [← h]
        exact hmem
      · exact hmax
      · intro q hq hqe
        rw [← h]
        exact hmin q hq hqe

/-- fold_assigns, phrased on rebuildFromComponents. -/
lemma rebuild_assigns (comps : List (List String)) (st : EngineEntState) (now : ℤ)
    (hdisj : comps.Pairwise (fun a b => ∀ w ∈ a, w ∉ b))
    (c : List String) (hc : c ∈ comps) (hlen : ¬ c.length < 2) :
    ∃ eid,
      (∀ e, bestEntity (countsFor st.wallet_to_entity c) = some e → eid = e)
      ∧ (bestEntity (countsFor st.wallet_to_entity c) = none →
          ∃ n, eid = nextEntityId n)
      ∧ (∀ w ∈ c, (rebuildFromComponents comps st now).wallet_to_entity w = some eid)
      ∧ ∃ comp2, (rebuildFromComponents comps st now).entities eid
          = some (mkEntity st.entities now comp2 eid) := by
  obtain ⟨eid, h1, h2, h3, h4⟩ :=
    fold_assigns st.wallet_to_entity st.entities now comps
      (fun _ => none, fun _ => none, st.entity_seq) hdisj c hc hlen
  exact ⟨eid, h1, h2, h3, h4⟩

/-- C9: on every rebuild, each connected component of at least 2 wallets is
assigned the id of the prior entity sharing the most wallets with it (ties
broken by the alphabetically smaller entity_id), or a freshly minted
sequential id of the form "ent_" ++ six digits when it shares no wallet with
any prior entity; two consecutive rebuilds with identical component
membership leave every wallet's entity_id unchanged; a component sharing at
least one wallet with exactly one prior entity inherits that id; and
created_at is preserved for reused ids. -/
theorem c9_stable_entity_ids
    (comps : List (List String)) (st0 st1 st2 : EngineEntState) (now1 now2 : ℤ)
    (hdisj : comps.Pairwise (fun a b => ∀ w ∈ a, w ∉ b))
    (h1 : st1 = rebuildFromComponents comps st0 now1)
    (h2 : st2 = rebuildFromComponents comps st1 now2) :
    (∀ c ∈ comps, ¬ c.length < 2 →
      ∃ eid,
        (∀ w ∈ c, st1.wallet_to_entity w = some eid)
        ∧ (∀ e, bestEntity (countsFor st0.wallet_to_entity c) = some e → eid = e)
        ∧ (bestEntity (countsFor st0.wallet_to_entity c) = none →
            ∃ n, eid = nextEntityId n)
        ∧ ∃ ent, st1.entities eid = some ent ∧ ent.entity_id = eid
            ∧ (∀ ent0, st0.entities eid = some ent0 →
                ent.created_at = ent0.created_at))
    ∧ (∀ c ∈ comps, ¬ c.length < 2 →
        ∀ w ∈ c, st2.wallet_to_entity w = st1.wallet_to_entity w)
    ∧ (∀ c ∈ comps, ¬ c.length < 2 → ∀ e,
        (∃ w ∈ c, st0.wallet_to_entity w = some e) →
        (∀ w ∈ c, ∀ e2, st0.wallet_to_entity w = some e2 → e2 = e) →
        ∀ w ∈ c, st1.wallet_to_entity w = some e)
    ∧ (∀ (counts : List (String × ℕ)) (e : String), bestEntity counts = some e →
        ∃ n, (e, n) ∈ counts ∧ (∀ q ∈ counts, q.2 ≤ n)
          ∧ (∀ q ∈ counts, q.2 = n → e ≤ q.1)) := by
  subst h1 h2
  have hpart1 : ∀ c ∈ comps, ¬ c.length < 2 →
      ∃ eid,
        (∀ w ∈ c, (rebuildFromComponents comps st0 now1).wallet_to_entity w = some eid)
        ∧ (∀ e, bestEntity (countsFor st0.wallet_to_entity c) = some e → eid = e)
        ∧ (bestEntity (countsFor st0.wallet_to_entity c) = none →
            ∃ n, eid = nextEntityId n)
        ∧ ∃ ent, (rebuildFromComponents comps st0 now1).entities eid = some ent
            ∧ ent.entity_id = eid
            ∧ (∀ ent0, st0.entities eid = some ent0 →
                ent.created_at = ent0.created_at) := by
    intro c hc hlen
    obtain ⟨eid, hsome, hnone, hmap, comp2, hent⟩ :=
      rebuild_assigns comps st0 now1 hdisj c hc hlen
    refine ⟨eid, hmap, hsome, hnone, mkEntity st0.entities now1 comp2 eid, hent,
      rfl, ?_⟩
    intro ent0 hent0
    simp [mkEntity, hent0]
  refine ⟨?_, ?_, ?_, bestEntity_spec⟩
  · intro c hc hlen
    obtain ⟨eid, hmap, hsome, hnone, hent⟩ := hpart1 c hc hlen
    exact ⟨eid, hmap, hsome, hnone, hent⟩
  · intro c hc hlen w hw
    obtain ⟨eid, hmap, _, _, _⟩ := hpart1 c hc hlen
    obtain ⟨eid2, hsome2, _, hmap2, _⟩ :=
      rebuild_assigns comps (rebuildFromComponents comps st0 now1) now2 hdisj c hc hlen
    have hne : c ≠ [] := by
      intro h0
      rw [h0] at hlen
      exact hlen (by simp)
    have hcounts : countsFor (rebuildFromComponents comps st0 now1).wallet_to_entity c
        = [(eid, c.length)] :=
      countsFor_const _ eid c hne hmap
    have heid2 : eid2 = eid := hsome2 eid (by rw [hcounts]; rfl)
    rw [hmap2 w hw, hmap w hw, heid2]
  · intro c hc hlen e hex huniq w hw
    obtain ⟨eid, hmap, hsome, _, _⟩ := hpart1 c hc hlen
    have hbest : bestEntity (countsFor st0.wallet_to_entity c) = some e :=
      bestEntity_countsFor_unique st0.wallet_to_entity c e hex huniq
    rw [hmap w hw, hsome e hbest]

def wSt9 : EngineEntState :=
  { entities := fun _ => none, wallet_to_entity := fun _ => none, entity_seq := 0 }

/-- Witness for C9: two disjoint two-wallet components, rebuilt twice. -/
theorem c9_stable_entity_ids_witness :
    List.Pairwise (fun a b => ∀ w ∈ a, w ∉ b) [["wa", "wb"], ["wc", "wd"]]
    ∧ (∀ c ∈ [["wa", "wb"], ["wc", "wd"]], ¬ c.length < 2 →
        ∀ w ∈ c,
          (rebuildFromComponents [["wa", "wb"], ["wc", "wd"]]
            (rebuildFromComponents [["wa", "wb"], ["wc", "wd"]] wSt9 100) 200).wallet_to_entity w
          = (rebuildFromComponents [["wa", "wb"], ["wc", "wd"]] wSt9 100).wallet_to_entity w) := by
  have h := c9_stable_entity_ids [["wa", "wb"], ["wc", "wd"]] wSt9
    (rebuildFromComponents [["wa", "wb"], ["wc", "wd"]] wSt9 100)
    (rebuildFromComponents [["wa", "wb"], ["wc", "wd"]]
      (rebuildFromComponents [["wa", "wb"], ["wc", "wd"]] wSt9 100) 200)
    100 200 (by decide) rfl rfl
  exact ⟨by decide, h.2.1⟩

end PM
